import Mathlib

/-
Verification of the gtm-slack-integration repository.

The repository has two JavaScript source variants of the same Cloud
Function (src/index.js and src/unnamed/part_000).  Both validate a
configuration, load a JSON state blob from cloud storage, loop over the
configured Slack outputs and GTM containers, fetch the live published
version of each container, compare it against the stored state, send a
Slack message when a new version is detected, and finally write the
updated state back.

Shallow embedding conventions:
  - JavaScript objects keyed by strings become insertion-ordered
    association lists (`List (String × _)`); assignment is `setKey`,
    member access is `lookupKey`.
  - Missing fields / `undefined` become `Option`; JavaScript truthiness
    of a string is `≠ ""`, of an object/array is presence (`isSome`).
  - The external collaborators become parameters: `live` is the GTM
    "versions.live" API call keyed by the request parent path (`none`
    models a thrown error), `sendOk` tells whether the Slack webhook
    delivery for a given URL succeeds (`false` models a thrown error),
    `pm` is the pretty-ms rendering library (its argument is `none`
    when the computed delta is NaN, i.e. `lastChecked` was undefined),
    `loaded` is the result of the state download+parse (`none` models
    any failure: object absent, download error, malformed JSON), and
    `now` is the epoch-millis clock value for this run.
  - A thrown error aborts the run: loops stop and the final state write
    does not happen (`written = none`).
-/

namespace GtmSlack

/-- Association-list lookup, JavaScript `obj[k]` (returns `undefined` as
`none` when the key is absent). -/
def lookupKey (k : String) : List (String × α) → Option α
  | [] => none
  | (k2, v) :: rest => if k2 = k then some v else lookupKey k rest

/-- Association-list assignment, JavaScript `obj[k] = v`: overwrites in
place if the key exists, otherwise appends (insertion order). -/
def setKey (k : String) (v : α) : List (String × α) → List (String × α)
  | [] => [(k, v)]
  | (k2, w) :: rest => if k2 = k then (k2, v) :: rest else (k2, w) :: setKey k v rest

/-- One container record of the persisted state:
`{containerVersionId: string|absent, lastChecked: epoch-millis|absent}`. -/
structure ContainerRecord where
  containerVersionId : Option String
  lastChecked : Option Nat
deriving DecidableEq

/-- The persisted state: accountId → containerId → record. -/
abbrev GtmState := List (String × List (String × ContainerRecord))

/-- Nested lookup `gtmState[accountId][containerId]`. -/
def lookup2 (st : GtmState) (a c : String) : Option ContainerRecord :=
  (lookupKey a st).bind (fun acct => lookupKey c acct)

/-- Nested assignment `gtmState[accountId][containerId] = r` (the account
object is assumed present at every call site, as in the source). -/
def setRecord (a c : String) (r : ContainerRecord) (st : GtmState) : GtmState :=
  setKey a (setKey c r ((lookupKey a st).getD [])) st

/-- Field assignment on an existing record, e.g.
`gtmState[a][c]['lastChecked'] = now`. -/
def modifyRecord (a c : String) (f : ContainerRecord → ContainerRecord) (st : GtmState) : GtmState :=
  setRecord a c (f ((lookup2 st a c).getD ⟨none, none⟩)) st

/-- The response `res.data` of `tagmanager.accounts.containers.versions.live`. -/
structure VersionData where
  containerVersionId : String
  containerPublicId : String
  containerName : String
  name : Option String
  tagManagerUrl : String
deriving DecidableEq

/-- One entry of `config.slackOutput`. -/
structure SlackOutputEntry where
  slackWebhookUrl : Option String
  gtmContainers : Option (List String)
deriving DecidableEq

/-- The `config.gcs` section. -/
structure GcsConfig where
  bucketName : Option String
  fileName : Option String
deriving DecidableEq

/-- The loaded `config.json`. -/
structure Config where
  gcs : Option GcsConfig
  slackOutput : Option (List SlackOutputEntry)
  verboseLogging : Bool
deriving DecidableEq

/-- Return value of `validateConfig`. -/
structure ValidationResult where
  error : Bool
  errorMessage : String
deriving DecidableEq

/-- JavaScript truthiness of an optional string field: present and
non-empty. -/
def truthyStr : Option String → Bool
  | none => false
  | some s => s ≠ ""

/-- The filter predicate of the last validation check:
`s['slackWebhookUrl'] && s['gtmContainers']` (an array is always truthy,
even when empty). -/
def entryTruthy (e : SlackOutputEntry) : Bool :=
  truthyStr e.slackWebhookUrl && e.gtmContainers.isSome

/-- `config.gcs && !config.gcs.hasOwnProperty('bucketName')`. -/
def gcsMissingBucket (config : Config) : Bool :=
  match config.gcs with
  | some g => g.bucketName.isNone
  | none => false

/-- `config.gcs && !config.gcs.hasOwnProperty('fileName')`. -/
def gcsMissingFile (config : Config) : Bool :=
  match config.gcs with
  | some g => g.fileName.isNone
  | none => false

/-- `config.slackOutput && config.slackOutput.length === 0`. -/
def slackOutputEmpty (config : Config) : Bool :=
  match config.slackOutput with
  | some l => l.isEmpty
  | none => false

/-- `config.slackOutput && config.slackOutput.filter(...).length !==
config.slackOutput.length`. -/
def slackOutputHasInvalid (config : Config) : Bool :=
  match config.slackOutput with
  | some l => (l.filter entryTruthy).length != l.length
  | none => false

/-- `validateConfig` from both source files (the two variants are
textually identical here): builds up an error message by appending one
code per failing check, and reports an error iff the message is
non-empty. -/
def validateConfig (config : Config) : ValidationResult :=
  let msg := ""
  let msg := if config.gcs.isNone then msg ++ "config_missing_gcs;" else msg
  let msg := if gcsMissingBucket config then msg ++ "config_missing_gcs_bucketName;" else msg
  let msg := if gcsMissingFile config then msg ++ "config_missing_gcs_fileName;" else msg
  let msg := if config.slackOutput.isNone then msg ++ "config_missing_slackOutput;" else msg
  let msg := if slackOutputEmpty config then msg ++ "config_missing_slackOutput_items;" else msg
  let msg := if slackOutputHasInvalid config then msg ++ "invalid_items_in_slackOutput;" else msg
  { error := msg != "", errorMessage := msg }

/-- Split a list of characters at a separator character, like the
JavaScript `String.prototype.split` with a one-character separator. -/
def splitSegs (sep : Char) : List Char → List (List Char)
  | [] => [[]]
  | ch :: rest =>
    let r := splitSegs sep rest
    if ch = sep then [] :: r
    else
      match r with
      | [] => [[ch]]
      | s :: ss => (ch :: s) :: ss

/-- `const [accountId, containerId] = gtmContainer.split('_')`: the first
segment.  Well-formed identifiers are `"<accountId>_<containerId>"`. -/
def accountIdOf (g : String) : String :=
  ⟨(splitSegs '_' g.data).headD []⟩

/-- The second segment of the split (the source assumes it exists;
malformed identifiers are an out-of-scope input-validation gap). -/
def containerIdOf (g : String) : String :=
  ⟨(splitSegs '_' g.data).getD 1 []⟩

/-- The `parent` argument of the versions.live API call:
`accounts/<accountId>/containers/<containerId>`. -/
def parentPath (g : String) : String :=
  "accounts/" ++ accountIdOf g ++ "/containers/" ++ containerIdOf g

/-- A Slack attachment as constructed by `sendSlackMessage`. -/
structure SlackAttachment where
  fallback : String
  color : String
  pretext : String
  authorName : String
  title : String
  titleLink : String
  text : String
  mrkdwnIn : List String
  footer : String
  ts : Rat
deriving DecidableEq

/-- `data.name || '(no name)'` (an absent or empty name is falsy). -/
def nameOrPlaceholder : Option String → String
  | none => "(no name)"
  | some s => if s = "" then "(no name)" else s

/-- `now - lastChecked`; `none` models the NaN produced when
`lastChecked` is undefined. -/
def mkDelta (now : Nat) : Option Nat → Option Int
  | some lc => some ((now : Int) - (lc : Int))
  | none => none

/-- The attachment built by `sendSlackMessage` in src/index.js. -/
def sendSlackMessageA (pm : Option Int → String) (now : Nat)
    (lastChecked : Option Nat) (data : VersionData) : SlackAttachment :=
  { fallback := "Container version " ++ data.containerVersionId ++ " was recently published"
    color := "#36a64f"
    pretext := "A container version was recently published!"
    authorName := data.containerPublicId ++ ": " ++ data.containerName
    title := data.containerVersionId ++ ": " ++ nameOrPlaceholder data.name
    titleLink := data.tagManagerUrl
    text := "New published version found since last check (" ++ pm (mkDelta now lastChecked) ++ " ago)"
    mrkdwnIn := ["text"]
    footer := "by GTM Tools"
    ts := (now : Rat) / 1000 }

/-- The attachment built by `sendSlackMessage` in src/unnamed/part_000
(its `text` ends in a period, unlike the src/index.js variant). -/
def sendSlackMessageB (pm : Option Int → String) (now : Nat)
    (lastChecked : Option Nat) (data : VersionData) : SlackAttachment :=
  { fallback := "Container version " ++ data.containerVersionId ++ " was recently published"
    color := "#36a64f"
    pretext := "A container version was recently published!"
    authorName := data.containerPublicId ++ ": " ++ data.containerName
    title := data.containerVersionId ++ ": " ++ nameOrPlaceholder data.name
    titleLink := data.tagManagerUrl
    text := "New published version found since last check (" ++ pm (mkDelta now lastChecked) ++ " ago)."
    mrkdwnIn := ["text"]
    footer := "by GTM Tools"
    ts := (now : Rat) / 1000 }

/-- `if (!gtmState[accountId]) { gtmState[accountId] = {}; }` — create
the account mapping when absent (objects are always truthy). -/
def ensureAccount (gtmState : GtmState) (accountId : String) : GtmState :=
  if (lookupKey accountId gtmState).isNone then setKey accountId [] gtmState else gtmState

/-- Outcome of processing one `gtmContainer` string: the in-memory state
afterwards, the notifications successfully delivered, and whether the
step completed without throwing (`ok = false` models a thrown error from
the version fetch or the webhook delivery). -/
structure StepResult where
  state : GtmState
  sent : List (String × SlackAttachment)
  ok : Bool
deriving DecidableEq

/-- The body of the inner `for (const gtmContainer of ...)` loop of
`getGtmInfo` in src/index.js (lines 136-167): fetch the live version,
create the account / container records when absent (a freshly created
record stores the fetched version id), notify Slack when the stored
version id differs from the fetched one and update it, and finally set
`lastChecked` to the current time. -/
def processContainerA (live : String → Option VersionData) (sendOk : String → Bool)
    (pm : Option Int → String) (now : Nat) (webHookUrl : String)
    (gtmState : GtmState) (gtmContainer : String) : StepResult :=
  let accountId := accountIdOf gtmContainer
  let containerId := containerIdOf gtmContainer
  match live ("accounts/" ++ accountId ++ "/containers/" ++ containerId) with
  | none => { state := gtmState, sent := [], ok := false }
  | some res =>
    let st1 := ensureAccount gtmState accountId
    let st2 :=
      if (lookup2 st1 accountId containerId).isNone then
        setRecord accountId containerId { containerVersionId := some res.containerVersionId, lastChecked := none } st1
      else st1
    let rec1 := (lookup2 st2 accountId containerId).getD ⟨none, none⟩
    if rec1.containerVersionId ≠ some res.containerVersionId then
      if sendOk webHookUrl then
        let st3 := modifyRecord accountId containerId
          (fun r => { r with containerVersionId := some res.containerVersionId }) st2
        let st4 := modifyRecord accountId containerId
          (fun r => { r with lastChecked := some now }) st3
        { state := st4
          sent := [(webHookUrl, sendSlackMessageA pm now rec1.lastChecked res)]
          ok := true }
      else { state := st2, sent := [], ok := false }
    else
      { state := modifyRecord accountId containerId (fun r => { r with lastChecked := some now }) st2
        sent := []
        ok := true }

/-- `addContainerToState` from src/unnamed/part_000: create the account
mapping when absent and ensure an (initially empty) container record. -/
def addContainerToState (gtmState : GtmState) (accountId containerId : String) : GtmState :=
  let st1 := ensureAccount gtmState accountId
  let acct := (lookupKey accountId st1).getD []
  setKey accountId
    (setKey containerId ((lookupKey containerId acct).getD ⟨none, none⟩) acct) st1

/-- JavaScript falsiness of the stored `containerVersionId`
(`!gtmState[a][c]['containerVersionId']`): absent or empty string. -/
def cvFalsy : Option String → Bool
  | none => true
  | some s => s = ""

/-- `checkPublishedVersionIdAgainstState` from src/unnamed/part_000:
fetch the live version; when the stored version id is falsy this is a
first observation (log only); else when it differs, notify Slack; in
every non-throwing path finally store the fetched version id.  `none`
models a thrown error (failed fetch or failed delivery). -/
def checkPublishedVersionIdAgainstState (live : String → Option VersionData)
    (sendOk : String → Bool) (pm : Option Int → String) (now : Nat)
    (webHookUrl : String) (gtmState : GtmState) (accountId containerId : String) :
    Option (GtmState × List (String × SlackAttachment)) :=
  match live ("accounts/" ++ accountId ++ "/containers/" ++ containerId) with
  | none => none
  | some res =>
    let rec0 := (lookup2 gtmState accountId containerId).getD ⟨none, none⟩
    let store := modifyRecord accountId containerId
      (fun r => { r with containerVersionId := some res.containerVersionId }) gtmState
    if cvFalsy rec0.containerVersionId then
      some (store, [])
    else if rec0.containerVersionId ≠ some res.containerVersionId then
      if sendOk webHookUrl then
        some (store, [(webHookUrl, sendSlackMessageB pm now rec0.lastChecked res)])
      else none
    else
      some (store, [])

/-- The body of the inner loop of `getGtmInfo` in src/unnamed/part_000
(lines 189-201): ensure the state record exists, run the version check,
then set `lastChecked` to the current time. -/
def processContainerB (live : String → Option VersionData) (sendOk : String → Bool)
    (pm : Option Int → String) (now : Nat) (webHookUrl : String)
    (gtmState : GtmState) (gtmContainer : String) : StepResult :=
  let accountId := accountIdOf gtmContainer
  let containerId := containerIdOf gtmContainer
  let st1 := addContainerToState gtmState accountId containerId
  match checkPublishedVersionIdAgainstState live sendOk pm now webHookUrl st1 accountId containerId with
  | none => { state := st1, sent := [], ok := false }
  | some (st2, msgs) =>
    { state := modifyRecord accountId containerId (fun r => { r with lastChecked := some now }) st2
      sent := msgs
      ok := true }

/-- Trace of a loop: final in-memory state, the notifications delivered,
the version-fetch request paths attempted (in order), and whether the
loop ran to completion. -/
structure LoopResult where
  state : GtmState
  sent : List (String × SlackAttachment)
  fetched : List String
  ok : Bool
deriving DecidableEq

/-- The inner `for (const gtmContainer of slack['gtmContainers'])` loop:
process each container in order; a thrown error aborts the rest. -/
def runContainers (step : GtmState → String → StepResult) :
    GtmState → List String → LoopResult
  | st, [] => { state := st, sent := [], fetched := [], ok := true }
  | st, g :: rest =>
    let r := step st g
    if r.ok then
      let r2 := runContainers step r.state rest
      { state := r2.state, sent := r.sent ++ r2.sent,
        fetched := parentPath g :: r2.fetched, ok := r2.ok }
    else
      { state := r.state, sent := r.sent, fetched := [parentPath g], ok := false }

/-- The outer `for (const slack of config['slackOutput'])` loop: process
each notification target in order; a thrown error aborts the rest.  The
`getD` defaults are unreachable after successful validation. -/
def runSlackOutputs (step : String → GtmState → String → StepResult) :
    GtmState → List SlackOutputEntry → LoopResult
  | st, [] => { state := st, sent := [], fetched := [], ok := true }
  | st, entry :: rest =>
    let webHookUrl := entry.slackWebhookUrl.getD ""
    let r := runContainers (step webHookUrl) st (entry.gtmContainers.getD [])
    if r.ok then
      let r2 := runSlackOutputs step r.state rest
      { state := r2.state, sent := r.sent ++ r2.sent,
        fetched := r.fetched ++ r2.fetched, ok := r2.ok }
    else r

/-- Observable outcome of one invocation of the Cloud Function: whether
the state download was attempted, the notifications delivered, the
version-fetch paths attempted, and the state written back at the end
(`none` when the run aborted or the config was invalid). -/
structure RunResult where
  stateRead : Bool
  sent : List (String × SlackAttachment)
  fetched : List String
  written : Option GtmState
deriving DecidableEq

/-- `getGtmInfo` from src/index.js: validate the config (abort on
error), load the state (`loaded = none` models any load failure and
degrades to the empty mapping), run the loops, and write the final state
back unless the run aborted. -/
def getGtmInfoA (config : Config) (loaded : Option GtmState)
    (live : String → Option VersionData) (sendOk : String → Bool)
    (pm : Option Int → String) (now : Nat) : RunResult :=
  if (validateConfig config).error then
    { stateRead := false, sent := [], fetched := [], written := none }
  else
    let gtmState := loaded.getD []
    let r := runSlackOutputs (fun url => processContainerA live sendOk pm now url)
      gtmState (config.slackOutput.getD [])
    { stateRead := true, sent := r.sent, fetched := r.fetched,
      written := if r.ok then some r.state else none }

/-- `getGtmInfo` from src/unnamed/part_000: identical orchestration, but
the loop body delegates to `addContainerToState` and
`checkPublishedVersionIdAgainstState`. -/
def getGtmInfoB (config : Config) (loaded : Option GtmState)
    (live : String → Option VersionData) (sendOk : String → Bool)
    (pm : Option Int → String) (now : Nat) : RunResult :=
  if (validateConfig config).error then
    { stateRead := false, sent := [], fetched := [], written := none }
  else
    let gtmState := loaded.getD []
    let r := runSlackOutputs (fun url => processContainerB live sendOk pm now url)
      gtmState (config.slackOutput.getD [])
    { stateRead := true, sent := r.sent, fetched := r.fetched,
      written := if r.ok then some r.state else none }

/-! Association-list lemmas. -/

theorem lookupKey_setKey_self (k : String) (v : α) (l : List (String × α)) :
    lookupKey k (setKey k v l) = some v := by
  induction l with
  | nil => simp [setKey, lookupKey]
  | cons p rest ih =>
    obtain ⟨k2, w⟩ := p
    by_cases h : k2 = k
    · simp [setKey, lookupKey, h]
    · simp [setKey, lookupKey, h, ih]

theorem lookupKey_setKey_ne (k k2 : String) (h : k2 ≠ k) (v : α) (l : List (String × α)) :
    lookupKey k (setKey k2 v l) = lookupKey k l := by
  induction l with
  | nil => simp [setKey, lookupKey, h]
  | cons p rest ih =>
    obtain ⟨k3, w⟩ := p
    by_cases h3 : k3 = k2
    · subst h3; simp [setKey, lookupKey, h]
    · by_cases h4 : k3 = k
      · simp [setKey, lookupKey, h3, h4, Ne.symm h]
      · simp [setKey, lookupKey, h3, h4, ih]

theorem setKey_setKey (k : String) (v w : α) (l : List (String × α)) :
    setKey k v (setKey k w l) = setKey k v l := by
  induction l with
  | nil => simp [setKey]
  | cons p rest ih =>
    obtain ⟨k2, u⟩ := p
    by_cases h : k2 = k
    · simp [setKey, h]
    · simp [setKey, h, ih]

theorem setKey_eq_of_lookup (k : String) (v : α) (l : List (String × α))
    (h : lookupKey k l = some v) : setKey k v l = l := by
  induction l with
  | nil => simp [lookupKey] at h
  | cons p rest ih =>
    obtain ⟨k2, w⟩ := p
    by_cases h2 : k2 = k
    · simp [lookupKey, h2] at h
      simp [setKey, h2, h]
    · simp [lookupKey, h2] at h
      simp [setKey, h2, ih h]

/-! Lemmas about nested state access. -/

theorem lookup2_ensureAccount (st : GtmState) (a a2 c2 : String) :
    lookup2 (ensureAccount st a) a2 c2 = lookup2 st a2 c2 := by
  unfold ensureAccount
  by_cases h : (lookupKey a st).isNone = true
  · rw [if_pos h]
    by_cases h2 : a = a2
    · subst h2
      unfold lookup2
      rw [lookupKey_setKey_self, Option.isNone_iff_eq_none.mp h]
      simp [lookupKey]
    · unfold lookup2
      rw [lookupKey_setKey_ne a2 a h2]
  · rw [if_neg h]

theorem lookupKey_ensureAccount_self (st : GtmState) (a : String) :
    lookupKey a (ensureAccount st a) = some ((lookupKey a st).getD []) := by
  unfold ensureAccount
  by_cases h : (lookupKey a st).isNone = true
  · rw [if_pos h, lookupKey_setKey_self, Option.isNone_iff_eq_none.mp h]
    rfl
  · rw [if_neg h]
    cases hx : lookupKey a st with
    | none => rw [hx] at h; exact absurd rfl h
    | some acct => rfl

theorem ensureAccount_of_present (st : GtmState) (a : String)
    (h : (lookupKey a st).isSome) : ensureAccount st a = st := by
  unfold ensureAccount
  rw [if_neg]
  intro hc
  rw [Option.isNone_iff_eq_none.mp hc] at h
  exact absurd h (by simp)

theorem lookup2_setRecord_self (st : GtmState) (a c : String) (r : ContainerRecord) :
    lookup2 (setRecord a c r st) a c = some r := by
  unfold setRecord lookup2
  rw [lookupKey_setKey_self, Option.some_bind, lookupKey_setKey_self]

theorem lookup2_setRecord_ne (st : GtmState) (a c a2 c2 : String) (r : ContainerRecord)
    (h : ¬(a = a2 ∧ c = c2)) :
    lookup2 (setRecord a c r st) a2 c2 = lookup2 st a2 c2 := by
  unfold setRecord lookup2
  by_cases ha : a = a2
  · subst ha
    have hc : c ≠ c2 := fun hc => h ⟨rfl, hc⟩
    rw [lookupKey_setKey_self, Option.some_bind, lookupKey_setKey_ne c2 c hc]
    cases hacct : lookupKey a st with
    | none => simp [lookupKey]
    | some acct => simp
  · rw [lookupKey_setKey_ne a2 a ha]

theorem setRecord_eq_of_lookup (st : GtmState) (a c : String) (r : ContainerRecord)
    (h : lookup2 st a c = some r) : setRecord a c r st = st := by
  unfold lookup2 at h
  cases hacct : lookupKey a st with
  | none => rw [hacct] at h; exact absurd h (by simp)
  | some acct =>
    rw [hacct, Option.some_bind] at h
    unfold setRecord
    rw [hacct]
    simp only [Option.getD_some]
    rw [setKey_eq_of_lookup c r acct h, setKey_eq_of_lookup a acct st hacct]

theorem setRecord_setRecord (st : GtmState) (a c : String) (r r2 : ContainerRecord) :
    setRecord a c r (setRecord a c r2 st) = setRecord a c r st := by
  unfold setRecord
  rw [lookupKey_setKey_self]
  simp only [Option.getD_some]
  rw [setKey_setKey, setKey_setKey]

theorem lookup2_modifyRecord_self (st : GtmState) (a c : String)
    (f : ContainerRecord → ContainerRecord) :
    lookup2 (modifyRecord a c f st) a c = some (f ((lookup2 st a c).getD ⟨none, none⟩)) := by
  unfold modifyRecord
  exact lookup2_setRecord_self st a c _

theorem lookup2_modifyRecord_ne (st : GtmState) (a c a2 c2 : String)
    (f : ContainerRecord → ContainerRecord) (h : ¬(a = a2 ∧ c = c2)) :
    lookup2 (modifyRecord a c f st) a2 c2 = lookup2 st a2 c2 := by
  unfold modifyRecord
  exact lookup2_setRecord_ne st a c a2 c2 _ h

theorem modifyRecord_modifyRecord (st : GtmState) (a c : String)
    (f g : ContainerRecord → ContainerRecord) :
    modifyRecord a c f (modifyRecord a c g st) = modifyRecord a c (fun r => f (g r)) st := by
  unfold modifyRecord
  rw [lookup2_setRecord_self]
  simp only [Option.getD_some]
  rw [setRecord_setRecord]

theorem addContainerToState_of_present (st : GtmState) (a c : String) (r : ContainerRecord)
    (h : lookup2 st a c = some r) : addContainerToState st a c = st := by
  unfold addContainerToState
  have hx : ∃ acct, lookupKey a st = some acct := by
    unfold lookup2 at h
    cases hy : lookupKey a st with
    | none => rw [hy] at h; exact absurd h (by simp)
    | some acct => exact ⟨acct, rfl⟩
  obtain ⟨acct, hx⟩ := hx
  rw [ensureAccount_of_present st a (by rw [hx]; rfl)]
  unfold lookup2 at h
  rw [hx, Option.some_bind] at h
  simp only [hx, Option.getD_some]
  rw [h]
  simp only [Option.getD_some]
  rw [setKey_eq_of_lookup c r acct h, setKey_eq_of_lookup a acct st hx]

theorem addContainerToState_of_absent (st : GtmState) (a c : String)
    (h : lookup2 st a c = none) :
    addContainerToState st a c = setRecord a c ⟨none, none⟩ (ensureAccount st a) := by
  have hsub : (lookupKey c ((lookupKey a st).getD [])).getD
      (⟨none, none⟩ : ContainerRecord) = ⟨none, none⟩ := by
    unfold lookup2 at h
    cases hx : lookupKey a st with
    | none => simp [lookupKey]
    | some acct =>
      rw [hx, Option.some_bind] at h
      simp [h]
  simp only [addContainerToState, setRecord]
  rw [lookupKey_ensureAccount_self]
  simp only [Option.getD_some]
  rw [hsub]

/-! Characterization of `validateConfig`. -/

theorem filter_length_eq_iff (p : α → Bool) (l : List α) :
    (l.filter p).length = l.length ↔ ∀ e ∈ l, p e = true := by
  induction l with
  | nil => simp
  | cons a rest ih =>
    cases hp : p a with
    | true => simp [List.filter_cons, hp, ih]
    | false =>
      simp only [List.filter_cons, hp, if_neg]
      constructor
      · intro h
        exact absurd h (Nat.ne_of_lt (Nat.lt_succ_of_le (List.length_filter_le p rest)))
      · intro h
        exact absurd (h a (by simp)) (by simp [hp])

/-- The error flag of `validateConfig` equals the disjunction of the six
check conditions of the source. -/
theorem validateConfig_error_eq (c : Config) :
    (validateConfig c).error =
      (c.gcs.isNone || gcsMissingBucket c || gcsMissingFile c || c.slackOutput.isNone
        || slackOutputEmpty c || slackOutputHasInvalid c) := by
  simp only [validateConfig]
  by_cases h1 : c.gcs.isNone = true <;>
  by_cases h2 : gcsMissingBucket c = true <;>
  by_cases h3 : gcsMissingFile c = true <;>
  by_cases h4 : c.slackOutput.isNone = true <;>
  by_cases h5 : slackOutputEmpty c = true <;>
  by_cases h6 : slackOutputHasInvalid c = true <;>
  simp_all [Option.isSome_iff_ne_none]

/-- Spec condition: missing top-level object-store section. -/
def specMissingGcs (c : Config) : Prop := c.gcs = none

/-- Spec condition: object-store section present but missing bucket name. -/
def specMissingBucketName (c : Config) : Prop :=
  ∃ g, c.gcs = some g ∧ g.bucketName = none

/-- Spec condition: object-store section present but missing file name. -/
def specMissingFileName (c : Config) : Prop :=
  ∃ g, c.gcs = some g ∧ g.fileName = none

/-- Spec condition: missing notification-targets section. -/
def specMissingSlackOutput (c : Config) : Prop := c.slackOutput = none

/-- Spec condition: notification-targets section present but empty. -/
def specEmptySlackOutput (c : Config) : Prop := c.slackOutput = some []

/-- Spec condition: some entry lacking a (non-empty) webhook URL or a
container list. -/
def specInvalidEntry (c : Config) : Prop :=
  ∃ l, c.slackOutput = some l ∧
    ∃ e ∈ l, truthyStr e.slackWebhookUrl = false ∨ e.gtmContainers = none

theorem gcsMissingBucket_iff (c : Config) :
    gcsMissingBucket c = true ↔ specMissingBucketName c := by
  unfold gcsMissingBucket specMissingBucketName
  cases hg : c.gcs with
  | none => simp
  | some g => simp [Option.isNone_iff_eq_none]

theorem gcsMissingFile_iff (c : Config) :
    gcsMissingFile c = true ↔ specMissingFileName c := by
  unfold gcsMissingFile specMissingFileName
  cases hg : c.gcs with
  | none => simp
  | some g => simp [Option.isNone_iff_eq_none]

theorem slackOutputEmpty_iff (c : Config) :
    slackOutputEmpty c = true ↔ specEmptySlackOutput c := by
  unfold slackOutputEmpty specEmptySlackOutput
  cases hs : c.slackOutput with
  | none => simp
  | some l => simp [List.isEmpty_iff]

theorem slackOutputHasInvalid_iff (c : Config) :
    slackOutputHasInvalid c = true ↔ specInvalidEntry c := by
  unfold slackOutputHasInvalid specInvalidEntry
  cases hs : c.slackOutput with
  | none => simp
  | some l =>
    simp only [Option.some.injEq, exists_eq_left', bne_iff_ne, ne_eq]
    rw [not_iff_comm, not_exists]
    constructor
    · intro h
      rw [filter_length_eq_iff]
      intro e he
      have := h e
      simp only [he, true_and, not_or] at this
      simp [entryTruthy, this.1, Option.isSome_iff_ne_none.mpr this.2]
    · intro h e
      rw [filter_length_eq_iff] at h
      intro ⟨he, hbad⟩
      obtain ⟨ht1, ht2⟩ := by
        have ht := h e he
        simp only [entryTruthy, Bool.and_eq_true] at ht
        exact ht
      rcases hbad with hb | hb
      · rw [ht1] at hb; simp at hb
      · rw [hb] at ht2; simp at ht2

/-! Concrete fixtures used by counterexamples and witnesses. -/

/-- A live-version response used in concrete scenarios. -/
def dataV6 : VersionData :=
  { containerVersionId := "6", containerPublicId := "GTM-ABC", containerName := "My Site",
    name := some "release", tagManagerUrl := "https://tagmanager.google.com/#/v6" }

/-- A remote API that answers only for container `1_2`. -/
def liveV6 : String → Option VersionData :=
  fun p => if p = "accounts/1/containers/2" then some dataV6 else none

/-- A webhook transport that always succeeds. -/
def sendAll : String → Bool := fun _ => true

/-- A fixed pretty-ms rendering. -/
def pmFix : Option Int → String := fun _ => "1s"

/-- A config with one target whose container list is empty. -/
def cfgEmptyContainers : Config :=
  { gcs := some { bucketName := some "bucket", fileName := some "state.json" }
    slackOutput := some [{ slackWebhookUrl := some "https://hooks.example/x", gtmContainers := some [] }]
    verboseLogging := false }

/-- A config with one target that lacks a container list. -/
def cfgNoContainerList : Config :=
  { gcs := some { bucketName := some "bucket", fileName := some "state.json" }
    slackOutput := some [{ slackWebhookUrl := some "https://hooks.example/x", gtmContainers := none }]
    verboseLogging := false }

/-- A config with no sections at all. -/
def cfgEmpty : Config := { gcs := none, slackOutput := none, verboseLogging := false }

/-- Claim C4, counterexample: `validateConfig` accepts (error = false) a
configuration containing a slackOutput entry whose gtmContainers is an
empty list, contradicting the claim that such a configuration yields
error = true (an empty array is truthy in JavaScript, so the entry
passes the filter). -/
theorem claim4_counterexample :
    (∃ e ∈ cfgEmptyContainers.slackOutput.getD [], e.gtmContainers = some []) ∧
    (validateConfig cfgEmptyContainers).error = false := by
  decide

/-- Claim C4, amended: for every configuration containing a slackOutput
entry that lacks a gtmContainers field, `validateConfig` returns
error = true; an entry whose gtmContainers is present but empty is not
rejected. -/
theorem claim4_theorem (c : Config) (l : List SlackOutputEntry) (e : SlackOutputEntry)
    (hl : c.slackOutput = some l) (he : e ∈ l) (hg : e.gtmContainers = none) :
    (validateConfig c).error = true := by
  rw [validateConfig_error_eq]
  have h6 : slackOutputHasInvalid c = true := by
    rw [slackOutputHasInvalid_iff]
    exact ⟨l, hl, e, he, Or.inr hg⟩
  simp [h6]

/-- Witness for the amended C4 at a concrete configuration. -/
theorem claim4_witness : (validateConfig cfgNoContainerList).error = true :=
  claim4_theorem cfgNoContainerList
    [{ slackWebhookUrl := some "https://hooks.example/x", gtmContainers := none }]
    { slackWebhookUrl := some "https://hooks.example/x", gtmContainers := none }
    rfl (by decide) rfl

/-- Claim C5: `validateConfig` reports error = true iff at least one of
the six listed failure conditions holds, and the six appended codes are
pairwise distinct (distinguishable per failing cause). -/
theorem claim5_theorem (c : Config) :
    ((validateConfig c).error = true ↔
      (specMissingGcs c ∨ specMissingBucketName c ∨ specMissingFileName c ∨
        specMissingSlackOutput c ∨ specEmptySlackOutput c ∨ specInvalidEntry c)) ∧
    List.Pairwise (fun x y => x ≠ y)
      ["config_missing_gcs;", "config_missing_gcs_bucketName;", "config_missing_gcs_fileName;",
        "config_missing_slackOutput;", "config_missing_slackOutput_items;",
        "invalid_items_in_slackOutput;"] := by
  constructor
  · rw [validateConfig_error_eq]
    simp only [Bool.or_eq_true, gcsMissingBucket_iff, gcsMissingFile_iff,
      slackOutputEmpty_iff, slackOutputHasInvalid_iff, Option.isNone_iff_eq_none,
      specMissingGcs, specMissingSlackOutput]
    tauto
  · decide

/-- Claim C6: when validation fails, both variants of `getGtmInfo`
return immediately: no state read, no version fetch, no notification, no
state write. -/
theorem claim6_theorem (c : Config) (loaded : Option GtmState)
    (live : String → Option VersionData) (sendOk : String → Bool)
    (pm : Option Int → String) (now : Nat)
    (h : (validateConfig c).error = true) :
    getGtmInfoA c loaded live sendOk pm now =
      { stateRead := false, sent := [], fetched := [], written := none } ∧
    getGtmInfoB c loaded live sendOk pm now =
      { stateRead := false, sent := [], fetched := [], written := none } := by
  unfold getGtmInfoA getGtmInfoB
  rw [if_pos h, if_pos h]
  exact ⟨rfl, rfl⟩

/-- Witness for C6 at a concrete invalid configuration. -/
theorem claim6_witness :
    (validateConfig cfgEmpty).error = true ∧
    getGtmInfoA cfgEmpty none liveV6 sendAll pmFix 10 =
      { stateRead := false, sent := [], fetched := [], written := none } ∧
    getGtmInfoB cfgEmpty none liveV6 sendAll pmFix 10 =
      { stateRead := false, sent := [], fetched := [], written := none } := by
  refine ⟨by decide, ?_, ?_⟩
  · exact (claim6_theorem cfgEmpty none liveV6 sendAll pmFix 10 (by decide)).1
  · exact (claim6_theorem cfgEmpty none liveV6 sendAll pmFix 10 (by decide)).2

/-! Characterization of the per-container steps. -/

theorem lookup2_isSome_account (st : GtmState) (a c : String) (r : ContainerRecord)
    (h : lookup2 st a c = some r) : (lookupKey a st).isSome := by
  unfold lookup2 at h
  cases hx : lookupKey a st with
  | none => rw [hx] at h; exact absurd h (by simp)
  | some acct => rfl

/-- Variant A step on a failed version fetch. -/
theorem processContainerA_fetch_fail (live : String → Option VersionData)
    (sendOk : String → Bool) (pm : Option Int → String) (now : Nat) (url : String)
    (st : GtmState) (g : String) (hl : live (parentPath g) = none) :
    processContainerA live sendOk pm now url st g = { state := st, sent := [], ok := false } := by
  simp only [parentPath] at hl
  simp only [processContainerA, hl]

/-- Variant A step when a record for the container exists. -/
theorem processContainerA_of_rec (live : String → Option VersionData)
    (sendOk : String → Bool) (pm : Option Int → String) (now : Nat) (url : String)
    (st : GtmState) (g : String) (d : VersionData) (r : ContainerRecord)
    (hl : live (parentPath g) = some d)
    (hr : lookup2 st (accountIdOf g) (containerIdOf g) = some r) :
    processContainerA live sendOk pm now url st g =
      if r.containerVersionId ≠ some d.containerVersionId then
        if sendOk url then
          { state := modifyRecord (accountIdOf g) (containerIdOf g)
              (fun x => { x with lastChecked := some now })
              (modifyRecord (accountIdOf g) (containerIdOf g)
                (fun x => { x with containerVersionId := some d.containerVersionId }) st)
            sent := [(url, sendSlackMessageA pm now r.lastChecked d)]
            ok := true }
        else { state := st, sent := [], ok := false }
      else
        { state := modifyRecord (accountIdOf g) (containerIdOf g)
            (fun x => { x with lastChecked := some now }) st
          sent := []
          ok := true } := by
  have hsome := lookup2_isSome_account st _ _ r hr
  simp only [parentPath] at hl
  simp only [processContainerA, hl, ensureAccount_of_present st (accountIdOf g) hsome, hr,
    Option.isNone_some, Bool.false_eq_true, if_false, Option.getD_some]

/-- Variant A step when no record for the container exists. -/
theorem processContainerA_of_absent (live : String → Option VersionData)
    (sendOk : String → Bool) (pm : Option Int → String) (now : Nat) (url : String)
    (st : GtmState) (g : String) (d : VersionData)
    (hl : live (parentPath g) = some d)
    (hr : lookup2 st (accountIdOf g) (containerIdOf g) = none) :
    processContainerA live sendOk pm now url st g =
      { state := modifyRecord (accountIdOf g) (containerIdOf g)
          (fun x => { x with lastChecked := some now })
          (setRecord (accountIdOf g) (containerIdOf g)
            { containerVersionId := some d.containerVersionId, lastChecked := none }
            (ensureAccount st (accountIdOf g)))
        sent := []
        ok := true } := by
  simp only [parentPath] at hl
  simp only [processContainerA, hl, lookup2_ensureAccount, hr, Option.isNone_none, if_true,
    lookup2_setRecord_self, Option.getD_some, ne_eq, not_true_eq_false, if_false]

/-- Variant B step on a failed version fetch. -/
theorem processContainerB_fetch_fail (live : String → Option VersionData)
    (sendOk : String → Bool) (pm : Option Int → String) (now : Nat) (url : String)
    (st : GtmState) (g : String) (hl : live (parentPath g) = none) :
    processContainerB live sendOk pm now url st g =
      { state := addContainerToState st (accountIdOf g) (containerIdOf g),
        sent := [], ok := false } := by
  simp only [parentPath] at hl
  simp only [processContainerB, checkPublishedVersionIdAgainstState, hl]

/-- Variant B step when a record for the container exists. -/
theorem processContainerB_of_rec (live : String → Option VersionData)
    (sendOk : String → Bool) (pm : Option Int → String) (now : Nat) (url : String)
    (st : GtmState) (g : String) (d : VersionData) (r : ContainerRecord)
    (hl : live (parentPath g) = some d)
    (hr : lookup2 st (accountIdOf g) (containerIdOf g) = some r) :
    processContainerB live sendOk pm now url st g =
      if cvFalsy r.containerVersionId then
        { state := modifyRecord (accountIdOf g) (containerIdOf g)
            (fun x => { x with lastChecked := some now })
            (modifyRecord (accountIdOf g) (containerIdOf g)
              (fun x => { x with containerVersionId := some d.containerVersionId }) st)
          sent := []
          ok := true }
      else if r.containerVersionId ≠ some d.containerVersionId then
        if sendOk url then
          { state := modifyRecord (accountIdOf g) (containerIdOf g)
              (fun x => { x with lastChecked := some now })
              (modifyRecord (accountIdOf g) (containerIdOf g)
                (fun x => { x with containerVersionId := some d.containerVersionId }) st)
            sent := [(url, sendSlackMessageB pm now r.lastChecked d)]
            ok := true }
        else { state := st, sent := [], ok := false }
      else
        { state := modifyRecord (accountIdOf g) (containerIdOf g)
            (fun x => { x with lastChecked := some now })
            (modifyRecord (accountIdOf g) (containerIdOf g)
              (fun x => { x with containerVersionId := some d.containerVersionId }) st)
          sent := []
          ok := true } := by
  simp only [parentPath] at hl
  have hadd := addContainerToState_of_present st (accountIdOf g) (containerIdOf g) r hr
  simp only [processContainerB, checkPublishedVersionIdAgainstState, hadd, hl, hr,
    Option.getD_some]
  by_cases h1 : cvFalsy r.containerVersionId = true
  · rw [if_pos h1, if_pos h1]
  · rw [if_neg h1, if_neg h1]
    by_cases h2 : r.containerVersionId ≠ some d.containerVersionId
    · rw [if_pos h2, if_pos h2]
      by_cases h3 : sendOk url = true
      · rw [if_pos h3, if_pos h3]
      · rw [if_neg h3, if_neg h3]
    · rw [if_neg h2, if_neg h2]

/-- Variant B step when no record for the container exists. -/
theorem processContainerB_of_absent (live : String → Option VersionData)
    (sendOk : String → Bool) (pm : Option Int → String) (now : Nat) (url : String)
    (st : GtmState) (g : String) (d : VersionData)
    (hl : live (parentPath g) = some d)
    (hr : lookup2 st (accountIdOf g) (containerIdOf g) = none) :
    processContainerB live sendOk pm now url st g =
      { state := modifyRecord (accountIdOf g) (containerIdOf g)
          (fun x => { x with lastChecked := some now })
          (modifyRecord (accountIdOf g) (containerIdOf g)
            (fun x => { x with containerVersionId := some d.containerVersionId })
            (setRecord (accountIdOf g) (containerIdOf g) ⟨none, none⟩
              (ensureAccount st (accountIdOf g))))
        sent := []
        ok := true } := by
  simp only [parentPath] at hl
  have hadd := addContainerToState_of_absent st (accountIdOf g) (containerIdOf g) hr
  simp only [processContainerB, checkPublishedVersionIdAgainstState, hadd, hl,
    lookup2_setRecord_self, Option.getD_some, cvFalsy, if_true]

/-! Claims C1, C2, C3: the per-container decision logic. -/

/-- A state whose only record stores version `"5"`. -/
def stCv5 : GtmState := [("1", [("2", { containerVersionId := some "5", lastChecked := some 100 })])]

/-- A state whose only record stores the empty-string version id. -/
def stCvEmpty : GtmState := [("1", [("2", { containerVersionId := some "", lastChecked := some 100 })])]

/-- A state whose only record has a lastChecked but no containerVersionId. -/
def stNoCv : GtmState := [("1", [("2", { containerVersionId := none, lastChecked := some 100 })])]

/-- Claim C1, counterexample: in the src/unnamed/part_000 variant, a
stored record whose containerVersionId is the empty string differs from
the fetched version id, yet processing sends no notification (the falsy
check treats it as a first observation), contradicting the claim that
exactly one notification is sent. -/
theorem claim1_counterexample :
    lookup2 stCvEmpty "1" "2" = some { containerVersionId := some "", lastChecked := some 100 } ∧
    liveV6 (parentPath "1_2") = some dataV6 ∧
    some dataV6.containerVersionId ≠ (some "" : Option String) ∧
    (processContainerB liveV6 sendAll pmFix 200 "hook" stCvEmpty "1_2").sent = [] := by
  decide

/-- Claim C1 (amended): for every container whose stored record has a
non-empty containerVersionId that differs from the fetched version id,
and whose webhook delivery succeeds, processing sends exactly one
notification built from the freshly fetched version record, and the
stored containerVersionId becomes the fetched id (both variants). -/
theorem claim1_theorem (live : String → Option VersionData) (sendOk : String → Bool)
    (pm : Option Int → String) (now : Nat) (url : String) (st : GtmState) (g : String)
    (d : VersionData) (r : ContainerRecord) (v : String)
    (hr : lookup2 st (accountIdOf g) (containerIdOf g) = some r)
    (hv : r.containerVersionId = some v) (hne : v ≠ "")
    (hl : live (parentPath g) = some d) (hd : d.containerVersionId ≠ v)
    (hs : sendOk url = true) :
    (processContainerA live sendOk pm now url st g).sent =
      [(url, sendSlackMessageA pm now r.lastChecked d)] ∧
    (processContainerB live sendOk pm now url st g).sent =
      [(url, sendSlackMessageB pm now r.lastChecked d)] ∧
    lookup2 (processContainerA live sendOk pm now url st g).state
      (accountIdOf g) (containerIdOf g) =
      some { containerVersionId := some d.containerVersionId, lastChecked := some now } ∧
    lookup2 (processContainerB live sendOk pm now url st g).state
      (accountIdOf g) (containerIdOf g) =
      some { containerVersionId := some d.containerVersionId, lastChecked := some now } := by
  have hcvne : r.containerVersionId ≠ some d.containerVersionId := by
    rw [hv]
    simp only [ne_eq, Option.some.injEq]
    exact fun h => hd h.symm
  have hfalsy : ¬cvFalsy r.containerVersionId = true := by
    rw [hv]
    simp [cvFalsy, hne]
  refine ⟨?_, ?_, ?_, ?_⟩
  · rw [processContainerA_of_rec live sendOk pm now url st g d r hl hr,
      if_pos hcvne, if_pos hs]
  · rw [processContainerB_of_rec live sendOk pm now url st g d r hl hr,
      if_neg hfalsy, if_pos hcvne, if_pos hs]
  · rw [processContainerA_of_rec live sendOk pm now url st g d r hl hr,
      if_pos hcvne, if_pos hs]
    simp only [modifyRecord_modifyRecord, lookup2_modifyRecord_self, hr, Option.getD_some]
  · rw [processContainerB_of_rec live sendOk pm now url st g d r hl hr,
      if_neg hfalsy, if_pos hcvne, if_pos hs]
    simp only [modifyRecord_modifyRecord, lookup2_modifyRecord_self, hr, Option.getD_some]

/-- Witness for the amended C1 at a concrete scenario: stored version
`"5"`, live fetch `"6"`. -/
theorem claim1_witness :
    (processContainerA liveV6 sendAll pmFix 200 "hook" stCv5 "1_2").sent =
      [("hook", sendSlackMessageA pmFix 200 (some 100) dataV6)] ∧
    (processContainerB liveV6 sendAll pmFix 200 "hook" stCv5 "1_2").sent =
      [("hook", sendSlackMessageB pmFix 200 (some 100) dataV6)] ∧
    lookup2 (processContainerA liveV6 sendAll pmFix 200 "hook" stCv5 "1_2").state
      (accountIdOf "1_2") (containerIdOf "1_2") =
      some { containerVersionId := some "6", lastChecked := some 200 } ∧
    lookup2 (processContainerB liveV6 sendAll pmFix 200 "hook" stCv5 "1_2").state
      (accountIdOf "1_2") (containerIdOf "1_2") =
      some { containerVersionId := some "6", lastChecked := some 200 } :=
  claim1_theorem liveV6 sendAll pmFix 200 "hook" stCv5 "1_2" dataV6
    { containerVersionId := some "5", lastChecked := some 100 } "5"
    (by decide) rfl (by decide) (by decide) (by decide) rfl

/-- Claim C2, counterexample: in the src/index.js variant, a container
whose record exists but has no containerVersionId (so "no prior
containerVersionId" holds) triggers a notification, contradicting the
claim that a first observation sends none: the creation branch is
skipped because the record object is truthy, and `undefined !==
res.data.containerVersionId` then notifies. -/
theorem claim2_counterexample :
    lookup2 stNoCv "1" "2" = some { containerVersionId := none, lastChecked := some 100 } ∧
    (processContainerA liveV6 sendAll pmFix 200 "hook" stNoCv "1_2").sent.length = 1 := by
  decide

/-- Claim C2 (amended): for every container with no state record at all
(first observation), processing sends no notification and the stored
record afterwards holds the fetched version id and the current time
(both variants). -/
theorem claim2_theorem (live : String → Option VersionData) (sendOk : String → Bool)
    (pm : Option Int → String) (now : Nat) (url : String) (st : GtmState) (g : String)
    (d : VersionData)
    (hl : live (parentPath g) = some d)
    (hr : lookup2 st (accountIdOf g) (containerIdOf g) = none) :
    (processContainerA live sendOk pm now url st g).sent = [] ∧
    (processContainerB live sendOk pm now url st g).sent = [] ∧
    (processContainerA live sendOk pm now url st g).ok = true ∧
    (processContainerB live sendOk pm now url st g).ok = true ∧
    lookup2 (processContainerA live sendOk pm now url st g).state
      (accountIdOf g) (containerIdOf g) =
      some { containerVersionId := some d.containerVersionId, lastChecked := some now } ∧
    lookup2 (processContainerB live sendOk pm now url st g).state
      (accountIdOf g) (containerIdOf g) =
      some { containerVersionId := some d.containerVersionId, lastChecked := some now } := by
  rw [processContainerA_of_absent live sendOk pm now url st g d hl hr,
    processContainerB_of_absent live sendOk pm now url st g d hl hr]
  refine ⟨rfl, rfl, rfl, rfl, ?_, ?_⟩
  · simp only [lookup2_modifyRecord_self, lookup2_setRecord_self, Option.getD_some]
  · simp only [modifyRecord_modifyRecord, lookup2_modifyRecord_self, lookup2_setRecord_self,
      Option.getD_some]

/-- Witness for the amended C2 at a concrete scenario: empty prior
state, live fetch `"6"`. -/
theorem claim2_witness :
    (processContainerA liveV6 sendAll pmFix 200 "hook" [] "1_2").sent = [] ∧
    (processContainerB liveV6 sendAll pmFix 200 "hook" [] "1_2").sent = [] ∧
    (processContainerA liveV6 sendAll pmFix 200 "hook" [] "1_2").ok = true ∧
    (processContainerB liveV6 sendAll pmFix 200 "hook" [] "1_2").ok = true ∧
    lookup2 (processContainerA liveV6 sendAll pmFix 200 "hook" [] "1_2").state
      (accountIdOf "1_2") (containerIdOf "1_2") =
      some { containerVersionId := some "6", lastChecked := some 200 } ∧
    lookup2 (processContainerB liveV6 sendAll pmFix 200 "hook" [] "1_2").state
      (accountIdOf "1_2") (containerIdOf "1_2") =
      some { containerVersionId := some "6", lastChecked := some 200 } :=
  claim2_theorem liveV6 sendAll pmFix 200 "hook" [] "1_2" dataV6 (by decide) (by decide)

/-- Claim C3: for every container whose stored containerVersionId equals
the fetched version id, processing sends no notification and still
updates lastChecked to the current time (both variants). -/
theorem claim3_theorem (live : String → Option VersionData) (sendOk : String → Bool)
    (pm : Option Int → String) (now : Nat) (url : String) (st : GtmState) (g : String)
    (d : VersionData) (r : ContainerRecord)
    (hr : lookup2 st (accountIdOf g) (containerIdOf g) = some r)
    (hl : live (parentPath g) = some d)
    (hv : r.containerVersionId = some d.containerVersionId) :
    (processContainerA live sendOk pm now url st g).sent = [] ∧
    (processContainerB live sendOk pm now url st g).sent = [] ∧
    (processContainerA live sendOk pm now url st g).ok = true ∧
    (processContainerB live sendOk pm now url st g).ok = true ∧
    lookup2 (processContainerA live sendOk pm now url st g).state
      (accountIdOf g) (containerIdOf g) = some { r with lastChecked := some now } ∧
    lookup2 (processContainerB live sendOk pm now url st g).state
      (accountIdOf g) (containerIdOf g) = some { r with lastChecked := some now } := by
  have hcv : ¬r.containerVersionId ≠ some d.containerVersionId := not_not_intro hv
  rw [processContainerA_of_rec live sendOk pm now url st g d r hl hr, if_neg hcv,
    processContainerB_of_rec live sendOk pm now url st g d r hl hr]
  have hB : (if cvFalsy r.containerVersionId = true then
      ({ state := modifyRecord (accountIdOf g) (containerIdOf g)
            (fun x => { x with lastChecked := some now })
            (modifyRecord (accountIdOf g) (containerIdOf g)
              (fun x => { x with containerVersionId := some d.containerVersionId }) st)
         sent := ([] : List (String × SlackAttachment))
         ok := true } : StepResult)
    else if r.containerVersionId ≠ some d.containerVersionId then
      if sendOk url = true then
        { state := modifyRecord (accountIdOf g) (containerIdOf g)
            (fun x => { x with lastChecked := some now })
            (modifyRecord (accountIdOf g) (containerIdOf g)
              (fun x => { x with containerVersionId := some d.containerVersionId }) st)
          sent := [(url, sendSlackMessageB pm now r.lastChecked d)]
          ok := true }
      else { state := st, sent := [], ok := false }
    else
      { state := modifyRecord (accountIdOf g) (containerIdOf g)
          (fun x => { x with lastChecked := some now })
          (modifyRecord (accountIdOf g) (containerIdOf g)
            (fun x => { x with containerVersionId := some d.containerVersionId }) st)
        sent := []
        ok := true }) =
      { state := modifyRecord (accountIdOf g) (containerIdOf g)
          (fun x => { x with lastChecked := some now })
          (modifyRecord (accountIdOf g) (containerIdOf g)
            (fun x => { x with containerVersionId := some d.containerVersionId }) st)
        sent := []
        ok := true } := by
    by_cases hf : cvFalsy r.containerVersionId = true
    · rw [if_pos hf]
    · rw [if_neg hf, if_neg hcv]
  rw [hB]
  refine ⟨rfl, rfl, rfl, rfl, ?_, ?_⟩
  · simp only [lookup2_modifyRecord_self, hr, Option.getD_some]
  · simp only [modifyRecord_modifyRecord, lookup2_modifyRecord_self, hr, Option.getD_some]
    rw [← hv]

/-- Witness for C3 at a concrete scenario: stored version `"6"`, live
fetch `"6"`. -/
theorem claim3_witness :
    (processContainerA liveV6 sendAll pmFix 200 "hook"
      [("1", [("2", { containerVersionId := some "6", lastChecked := some 100 })])] "1_2").sent = [] ∧
    (processContainerB liveV6 sendAll pmFix 200 "hook"
      [("1", [("2", { containerVersionId := some "6", lastChecked := some 100 })])] "1_2").sent = [] ∧
    (processContainerA liveV6 sendAll pmFix 200 "hook"
      [("1", [("2", { containerVersionId := some "6", lastChecked := some 100 })])] "1_2").ok = true ∧
    (processContainerB liveV6 sendAll pmFix 200 "hook"
      [("1", [("2", { containerVersionId := some "6", lastChecked := some 100 })])] "1_2").ok = true ∧
    lookup2 (processContainerA liveV6 sendAll pmFix 200 "hook"
      [("1", [("2", { containerVersionId := some "6", lastChecked := some 100 })])] "1_2").state
      (accountIdOf "1_2") (containerIdOf "1_2") =
      some { containerVersionId := some "6", lastChecked := some 200 } ∧
    lookup2 (processContainerB liveV6 sendAll pmFix 200 "hook"
      [("1", [("2", { containerVersionId := some "6", lastChecked := some 100 })])] "1_2").state
      (accountIdOf "1_2") (containerIdOf "1_2") =
      some { containerVersionId := some "6", lastChecked := some 200 } :=
  claim3_theorem liveV6 sendAll pmFix 200 "hook"
    [("1", [("2", { containerVersionId := some "6", lastChecked := some 100 })])] "1_2" dataV6
    { containerVersionId := some "6", lastChecked := some 100 }
    (by decide) (by decide) rfl

/-! Machinery for claims C7 and C9: a container key is "synced" when its
record (if any) stores exactly the version id the remote API reports. -/

/-- The record at `(a, c)`, when present, stores the version id that
`live` currently reports for that container. -/
def keyFact (live : String → Option VersionData) (st : GtmState) (a c : String) : Prop :=
  ∀ r, lookup2 st a c = some r →
    ∃ d, live ("accounts/" ++ a ++ "/containers/" ++ c) = some d ∧
      r.containerVersionId = some d.containerVersionId

theorem keyFact_nil (live : String → Option VersionData) (a c : String) :
    keyFact live [] a c := by
  intro r hr
  simp [lookup2, lookupKey] at hr

/-- A state transition that syncs its own key and leaves every other key
untouched establishes its own `keyFact` and preserves all others. -/
theorem keyFact_update (live : String → Option VersionData) (st st2 : GtmState)
    (a0 c0 : String) (d : VersionData)
    (hl : live ("accounts/" ++ a0 ++ "/containers/" ++ c0) = some d)
    (hself : ∃ r2, lookup2 st2 a0 c0 = some r2 ∧
      r2.containerVersionId = some d.containerVersionId)
    (hother : ∀ a c, ¬(a0 = a ∧ c0 = c) → lookup2 st2 a c = lookup2 st a c) :
    keyFact live st2 a0 c0 ∧ ∀ a c, keyFact live st a c → keyFact live st2 a c := by
  have hown : keyFact live st2 a0 c0 := by
    intro r hr
    obtain ⟨r2, h1, h2⟩ := hself
    rw [hr] at h1
    obtain rfl : r = r2 := by simpa using h1
    exact ⟨d, hl, h2⟩
  refine ⟨hown, ?_⟩
  intro a c hk r hr
  by_cases hac : a0 = a ∧ c0 = c
  · obtain ⟨rfl, rfl⟩ := hac
    exact hown r hr
  · rw [hother a c hac] at hr
    exact hk r hr

/-- Variant A: a synced key produces no notification. -/
theorem stepA_quiet (live : String → Option VersionData) (sendOk : String → Bool)
    (pm : Option Int → String) (now : Nat) (url : String) (st : GtmState) (g : String)
    (h : keyFact live st (accountIdOf g) (containerIdOf g)) :
    (processContainerA live sendOk pm now url st g).sent = [] := by
  cases hl : live (parentPath g) with
  | none => rw [processContainerA_fetch_fail live sendOk pm now url st g hl]
  | some d =>
    cases hr : lookup2 st (accountIdOf g) (containerIdOf g) with
    | none => rw [processContainerA_of_absent live sendOk pm now url st g d hl hr]
    | some r =>
      obtain ⟨d2, hd2, hcv⟩ := h r hr
      have hl2 : live ("accounts/" ++ accountIdOf g ++ "/containers/" ++ containerIdOf g) = some d := hl
      rw [hl2] at hd2
      obtain rfl : d = d2 := by simpa using hd2
      rw [processContainerA_of_rec live sendOk pm now url st g d r hl hr,
        if_neg (not_not_intro hcv)]

/-- Variant A: a completed step syncs its own key and preserves every
synced key. -/
theorem stepA_fact (live : String → Option VersionData) (sendOk : String → Bool)
    (pm : Option Int → String) (now : Nat) (url : String) (st : GtmState) (g : String)
    (hok : (processContainerA live sendOk pm now url st g).ok = true) :
    keyFact live (processContainerA live sendOk pm now url st g).state
      (accountIdOf g) (containerIdOf g) ∧
    ∀ a c, keyFact live st a c →
      keyFact live (processContainerA live sendOk pm now url st g).state a c := by
  cases hl : live (parentPath g) with
  | none =>
    rw [processContainerA_fetch_fail live sendOk pm now url st g hl] at hok
    exact absurd hok (by simp)
  | some d =>
    have hl2 : live ("accounts/" ++ accountIdOf g ++ "/containers/" ++ containerIdOf g) = some d := hl
    cases hr : lookup2 st (accountIdOf g) (containerIdOf g) with
    | none =>
      rw [processContainerA_of_absent live sendOk pm now url st g d hl hr]
      apply keyFact_update live st _ _ _ d hl2
      · exact ⟨{ containerVersionId := some d.containerVersionId, lastChecked := some now },
          by simp only [lookup2_modifyRecord_self, lookup2_setRecord_self, Option.getD_some], rfl⟩
      · intro a c hac
        rw [lookup2_modifyRecord_ne _ _ _ _ _ _ hac, lookup2_setRecord_ne _ _ _ _ _ _ hac,
          lookup2_ensureAccount]
    | some r =>
      rw [processContainerA_of_rec live sendOk pm now url st g d r hl hr] at hok ⊢
      by_cases hcv : r.containerVersionId ≠ some d.containerVersionId
      · rw [if_pos hcv] at hok ⊢
        by_cases hs : sendOk url = true
        · rw [if_pos hs] at hok ⊢
          apply keyFact_update live st _ _ _ d hl2
          · exact ⟨{ containerVersionId := some d.containerVersionId, lastChecked := some now },
              by simp only [modifyRecord_modifyRecord, lookup2_modifyRecord_self, hr,
                Option.getD_some], rfl⟩
          · intro a c hac
            rw [lookup2_modifyRecord_ne _ _ _ _ _ _ hac, lookup2_modifyRecord_ne _ _ _ _ _ _ hac]
        · rw [if_neg hs] at hok
          exact absurd hok (by simp)
      · rw [if_neg hcv] at hok ⊢
        have hcveq : r.containerVersionId = some d.containerVersionId := not_not.mp hcv
        apply keyFact_update live st _ _ _ d hl2
        · exact ⟨{ r with lastChecked := some now },
            by simp only [lookup2_modifyRecord_self, hr, Option.getD_some], hcveq⟩
        · intro a c hac
          rw [lookup2_modifyRecord_ne _ _ _ _ _ _ hac]

/-- Variant B: a synced key produces no notification. -/
theorem stepB_quiet (live : String → Option VersionData) (sendOk : String → Bool)
    (pm : Option Int → String) (now : Nat) (url : String) (st : GtmState) (g : String)
    (h : keyFact live st (accountIdOf g) (containerIdOf g)) :
    (processContainerB live sendOk pm now url st g).sent = [] := by
  cases hl : live (parentPath g) with
  | none => rw [processContainerB_fetch_fail live sendOk pm now url st g hl]
  | some d =>
    cases hr : lookup2 st (accountIdOf g) (containerIdOf g) with
    | none => rw [processContainerB_of_absent live sendOk pm now url st g d hl hr]
    | some r =>
      obtain ⟨d2, hd2, hcv⟩ := h r hr
      have hl2 : live ("accounts/" ++ accountIdOf g ++ "/containers/" ++ containerIdOf g) = some d := hl
      rw [hl2] at hd2
      obtain rfl : d = d2 := by simpa using hd2
      rw [processContainerB_of_rec live sendOk pm now url st g d r hl hr]
      by_cases hf : cvFalsy r.containerVersionId = true
      · rw [if_pos hf]
      · rw [if_neg hf, if_neg (not_not_intro hcv)]

/-- Variant B: a completed step syncs its own key and preserves every
synced key. -/
theorem stepB_fact (live : String → Option VersionData) (sendOk : String → Bool)
    (pm : Option Int → String) (now : Nat) (url : String) (st : GtmState) (g : String)
    (hok : (processContainerB live sendOk pm now url st g).ok = true) :
    keyFact live (processContainerB live sendOk pm now url st g).state
      (accountIdOf g) (containerIdOf g) ∧
    ∀ a c, keyFact live st a c →
      keyFact live (processContainerB live sendOk pm now url st g).state a c := by
  cases hl : live (parentPath g) with
  | none =>
    rw [processContainerB_fetch_fail live sendOk pm now url st g hl] at hok
    exact absurd hok (by simp)
  | some d =>
    have hl2 : live ("accounts/" ++ accountIdOf g ++ "/containers/" ++ containerIdOf g) = some d := hl
    cases hr : lookup2 st (accountIdOf g) (containerIdOf g) with
    | none =>
      rw [processContainerB_of_absent live sendOk pm now url st g d hl hr]
      apply keyFact_update live st _ _ _ d hl2
      · exact ⟨{ containerVersionId := some d.containerVersionId, lastChecked := some now },
          by simp only [modifyRecord_modifyRecord, lookup2_modifyRecord_self,
            lookup2_setRecord_self, Option.getD_some], rfl⟩
      · intro a c hac
        rw [lookup2_modifyRecord_ne _ _ _ _ _ _ hac, lookup2_modifyRecord_ne _ _ _ _ _ _ hac,
          lookup2_setRecord_ne _ _ _ _ _ _ hac, lookup2_ensureAccount]
    | some r =>
      rw [processContainerB_of_rec live sendOk pm now url st g d r hl hr] at hok ⊢
      have hgoal : ∀ st2, st2 = modifyRecord (accountIdOf g) (containerIdOf g)
          (fun x => { x with lastChecked := some now })
          (modifyRecord (accountIdOf g) (containerIdOf g)
            (fun x => { x with containerVersionId := some d.containerVersionId }) st) →
          keyFact live st2 (accountIdOf g) (containerIdOf g) ∧
          ∀ a c, keyFact live st a c → keyFact live st2 a c := by
        intro st2 hst2
        subst hst2
        apply keyFact_update live st _ _ _ d hl2
        · exact ⟨{ containerVersionId := some d.containerVersionId, lastChecked := some now },
            by simp only [modifyRecord_modifyRecord, lookup2_modifyRecord_self, hr,
              Option.getD_some], rfl⟩
        · intro a c hac
          rw [lookup2_modifyRecord_ne _ _ _ _ _ _ hac, lookup2_modifyRecord_ne _ _ _ _ _ _ hac]
      by_cases hf : cvFalsy r.containerVersionId = true
      · rw [if_pos hf]
        exact hgoal _ rfl
      · rw [if_neg hf] at hok ⊢
        by_cases hcv : r.containerVersionId ≠ some d.containerVersionId
        · rw [if_pos hcv] at hok ⊢
          by_cases hs : sendOk url = true
          · rw [if_pos hs]
            exact hgoal _ rfl
          · rw [if_neg hs] at hok
            exact absurd hok (by simp)
        · rw [if_neg hcv]
          exact hgoal _ rfl

/-- Inner loop, quietness: when every listed container key is synced,
the loop sends nothing; on completion every synced key stays synced. -/
theorem runContainers_quiet (live : String → Option VersionData)
    (step : GtmState → String → StepResult)
    (hq : ∀ st g, keyFact live st (accountIdOf g) (containerIdOf g) → (step st g).sent = [])
    (hf : ∀ st g, (step st g).ok = true →
      keyFact live (step st g).state (accountIdOf g) (containerIdOf g) ∧
      ∀ a c, keyFact live st a c → keyFact live (step st g).state a c)
    (l : List String) :
    ∀ st, (∀ g ∈ l, keyFact live st (accountIdOf g) (containerIdOf g)) →
      (runContainers step st l).sent = [] ∧
      ((runContainers step st l).ok = true →
        ∀ a c, keyFact live st a c → keyFact live (runContainers step st l).state a c) := by
  induction l with
  | nil =>
    intro st h
    exact ⟨rfl, fun _ a c hk => hk⟩
  | cons g rest ih =>
    intro st h
    simp only [runContainers]
    by_cases hok : (step st g).ok = true
    · rw [if_pos hok]
      obtain ⟨hfg, hpres⟩ := hf st g hok
      have hrest : ∀ g2 ∈ rest,
          keyFact live (step st g).state (accountIdOf g2) (containerIdOf g2) :=
        fun g2 hg2 => hpres _ _ (h g2 (List.mem_cons_of_mem g hg2))
      obtain ⟨hsent, hok2⟩ := ih (step st g).state hrest
      refine ⟨?_, ?_⟩
      · simp only [hq st g (h g (List.mem_cons_self g rest)), hsent, List.nil_append]
      · intro hokall a c hk
        exact hok2 hokall a c (hpres a c hk)
    · rw [if_neg hok]
      exact ⟨hq st g (h g (List.mem_cons_self g rest)), fun hfalse => absurd hfalse (by simp)⟩

/-- Inner loop: a completed loop leaves every listed key synced and
preserves every synced key. -/
theorem runContainers_fact (live : String → Option VersionData)
    (step : GtmState → String → StepResult)
    (hf : ∀ st g, (step st g).ok = true →
      keyFact live (step st g).state (accountIdOf g) (containerIdOf g) ∧
      ∀ a c, keyFact live st a c → keyFact live (step st g).state a c)
    (l : List String) :
    ∀ st, (runContainers step st l).ok = true →
      (∀ g ∈ l, keyFact live (runContainers step st l).state (accountIdOf g) (containerIdOf g)) ∧
      (∀ a c, keyFact live st a c → keyFact live (runContainers step st l).state a c) := by
  induction l with
  | nil =>
    intro st _
    exact ⟨fun g hg => absurd hg (List.not_mem_nil g), fun a c hk => hk⟩
  | cons g rest ih =>
    intro st hok
    simp only [runContainers] at hok ⊢
    by_cases h1 : (step st g).ok = true
    · rw [if_pos h1] at hok ⊢
      obtain ⟨hfg, hpres⟩ := hf st g h1
      obtain ⟨hall, hpres2⟩ := ih (step st g).state hok
      refine ⟨?_, fun a c hk => hpres2 a c (hpres a c hk)⟩
      intro g2 hg2
      rcases List.mem_cons.mp hg2 with rfl | hg2
      · exact hpres2 _ _ hfg
      · exact hall g2 hg2
    · rw [if_neg h1] at hok
      exact absurd hok (by simp)

/-- Outer loop, quietness. -/
theorem runSlackOutputs_quiet (live : String → Option VersionData)
    (step : String → GtmState → String → StepResult)
    (hq : ∀ url st g, keyFact live st (accountIdOf g) (containerIdOf g) →
      (step url st g).sent = [])
    (hf : ∀ url st g, (step url st g).ok = true →
      keyFact live (step url st g).state (accountIdOf g) (containerIdOf g) ∧
      ∀ a c, keyFact live st a c → keyFact live (step url st g).state a c)
    (entries : List SlackOutputEntry) :
    ∀ st, (∀ e ∈ entries, ∀ g ∈ e.gtmContainers.getD [],
        keyFact live st (accountIdOf g) (containerIdOf g)) →
      (runSlackOutputs step st entries).sent = [] ∧
      ((runSlackOutputs step st entries).ok = true →
        ∀ a c, keyFact live st a c → keyFact live (runSlackOutputs step st entries).state a c) := by
  induction entries with
  | nil =>
    intro st h
    exact ⟨rfl, fun _ a c hk => hk⟩
  | cons e rest ih =>
    intro st h
    simp only [runSlackOutputs]
    obtain ⟨hsent1, hpres1⟩ := runContainers_quiet live (step (e.slackWebhookUrl.getD ""))
      (hq _) (hf _) (e.gtmContainers.getD []) st (h e (List.mem_cons_self e rest))
    by_cases hok : (runContainers (step (e.slackWebhookUrl.getD "")) st
        (e.gtmContainers.getD [])).ok = true
    · rw [if_pos hok]
      have hrest : ∀ e2 ∈ rest, ∀ g ∈ e2.gtmContainers.getD [],
          keyFact live (runContainers (step (e.slackWebhookUrl.getD "")) st
            (e.gtmContainers.getD [])).state (accountIdOf g) (containerIdOf g) :=
        fun e2 he2 g hg =>
          hpres1 hok _ _ (h e2 (List.mem_cons_of_mem e he2) g hg)
      obtain ⟨hsent2, hok2⟩ := ih _ hrest
      refine ⟨?_, ?_⟩
      · simp only [hsent1, hsent2, List.nil_append]
      · intro hokall a c hk
        exact hok2 hokall a c (hpres1 hok a c hk)
    · rw [if_neg hok]
      exact ⟨hsent1, fun hfalse => absurd hfalse hok⟩

/-- Outer loop: a completed run leaves every configured key synced. -/
theorem runSlackOutputs_fact (live : String → Option VersionData)
    (step : String → GtmState → String → StepResult)
    (hf : ∀ url st g, (step url st g).ok = true →
      keyFact live (step url st g).state (accountIdOf g) (containerIdOf g) ∧
      ∀ a c, keyFact live st a c → keyFact live (step url st g).state a c)
    (entries : List SlackOutputEntry) :
    ∀ st, (runSlackOutputs step st entries).ok = true →
      (∀ e ∈ entries, ∀ g ∈ e.gtmContainers.getD [],
        keyFact live (runSlackOutputs step st entries).state (accountIdOf g) (containerIdOf g)) ∧
      (∀ a c, keyFact live st a c → keyFact live (runSlackOutputs step st entries).state a c) := by
  induction entries with
  | nil =>
    intro st _
    exact ⟨fun e he => absurd he (List.not_mem_nil e), fun a c hk => hk⟩
  | cons e rest ih =>
    intro st hok
    simp only [runSlackOutputs] at hok ⊢
    by_cases h1 : (runContainers (step (e.slackWebhookUrl.getD "")) st
        (e.gtmContainers.getD [])).ok = true
    · rw [if_pos h1] at hok ⊢
      obtain ⟨hall1, hpres1⟩ := runContainers_fact live (step (e.slackWebhookUrl.getD ""))
        (hf _) (e.gtmContainers.getD []) st h1
      obtain ⟨hall2, hpres2⟩ := ih _ hok
      refine ⟨?_, fun a c hk => hpres2 a c (hpres1 a c hk)⟩
      intro e2 he2 g hg
      rcases List.mem_cons.mp he2 with rfl | he2
      · exact hpres2 _ _ (hall1 g hg)
      · exact hall2 e2 he2 g hg
    · rw [if_neg h1] at hok
      exact absurd hok h1

/-- A valid one-target, one-container configuration. -/
def cfgOne : Config :=
  { gcs := some { bucketName := some "bucket", fileName := some "state.json" }
    slackOutput := some [{ slackWebhookUrl := some "hook", gtmContainers := some ["1_2"] }]
    verboseLogging := false }

/-- Claim C7: when loading the persisted state fails for any reason
(modelled as `loaded = none`), the run proceeds exactly as with an empty
state mapping: same outcome as `loaded = some []`, the run still goes on
past the load (stateRead = true), and every container is a first
observation, so no notification is sent (both variants). -/
theorem claim7_theorem (cfg : Config) (live : String → Option VersionData)
    (sendOk : String → Bool) (pm : Option Int → String) (now : Nat)
    (h : (validateConfig cfg).error = false) :
    getGtmInfoA cfg none live sendOk pm now = getGtmInfoA cfg (some []) live sendOk pm now ∧
    getGtmInfoB cfg none live sendOk pm now = getGtmInfoB cfg (some []) live sendOk pm now ∧
    (getGtmInfoA cfg none live sendOk pm now).stateRead = true ∧
    (getGtmInfoB cfg none live sendOk pm now).stateRead = true ∧
    (getGtmInfoA cfg none live sendOk pm now).sent = [] ∧
    (getGtmInfoB cfg none live sendOk pm now).sent = [] := by
  have hne : ¬(validateConfig cfg).error = true := by simp [h]
  have hvac : ∀ e ∈ cfg.slackOutput.getD [], ∀ g ∈ e.gtmContainers.getD [],
      keyFact live ([] : GtmState) (accountIdOf g) (containerIdOf g) :=
    fun e _ g _ => keyFact_nil live _ _
  refine ⟨rfl, rfl, ?_, ?_, ?_, ?_⟩
  · unfold getGtmInfoA; rw [if_neg hne]
  · unfold getGtmInfoB; rw [if_neg hne]
  · unfold getGtmInfoA; rw [if_neg hne]
    exact (runSlackOutputs_quiet live _
      (fun url st g hk => stepA_quiet live sendOk pm now url st g hk)
      (fun url st g hok => stepA_fact live sendOk pm now url st g hok)
      (cfg.slackOutput.getD []) [] hvac).1
  · unfold getGtmInfoB; rw [if_neg hne]
    exact (runSlackOutputs_quiet live _
      (fun url st g hk => stepB_quiet live sendOk pm now url st g hk)
      (fun url st g hok => stepB_fact live sendOk pm now url st g hok)
      (cfg.slackOutput.getD []) [] hvac).1

/-- Witness for C7 at a concrete valid configuration. -/
theorem claim7_witness :
    getGtmInfoA cfgOne none liveV6 sendAll pmFix 10 =
      getGtmInfoA cfgOne (some []) liveV6 sendAll pmFix 10 ∧
    getGtmInfoB cfgOne none liveV6 sendAll pmFix 10 =
      getGtmInfoB cfgOne (some []) liveV6 sendAll pmFix 10 ∧
    (getGtmInfoA cfgOne none liveV6 sendAll pmFix 10).stateRead = true ∧
    (getGtmInfoB cfgOne none liveV6 sendAll pmFix 10).stateRead = true ∧
    (getGtmInfoA cfgOne none liveV6 sendAll pmFix 10).sent = [] ∧
    (getGtmInfoB cfgOne none liveV6 sendAll pmFix 10).sent = [] :=
  claim7_theorem cfgOne liveV6 sendAll pmFix 10 (by decide)

/-- Claim C9: when a run completes and writes state `s1`, a second run
over the same configuration against the same remote version API, loading
`s1`, sends zero notifications (both variants). -/
theorem claim9_theorem (cfg : Config) (loadedA loadedB : Option GtmState)
    (live : String → Option VersionData)
    (sendOk : String → Bool) (pm : Option Int → String) (now1 : Nat)
    (sendOk2 : String → Bool) (pm2 : Option Int → String) (now2 : Nat)
    (s1A s1B : GtmState)
    (hwA : (getGtmInfoA cfg loadedA live sendOk pm now1).written = some s1A)
    (hwB : (getGtmInfoB cfg loadedB live sendOk pm now1).written = some s1B) :
    (getGtmInfoA cfg (some s1A) live sendOk2 pm2 now2).sent = [] ∧
    (getGtmInfoB cfg (some s1B) live sendOk2 pm2 now2).sent = [] := by
  have herr : ¬(validateConfig cfg).error = true := by
    intro he
    unfold getGtmInfoA at hwA
    rw [if_pos he] at hwA
    simp at hwA
  constructor
  · unfold getGtmInfoA at hwA ⊢
    rw [if_neg herr] at hwA ⊢
    by_cases hok : (runSlackOutputs (fun url => processContainerA live sendOk pm now1 url)
        (loadedA.getD []) (cfg.slackOutput.getD [])).ok = true
    · have hwA2 : (if (runSlackOutputs (fun url => processContainerA live sendOk pm now1 url)
          (loadedA.getD []) (cfg.slackOutput.getD [])).ok = true then
            some (runSlackOutputs (fun url => processContainerA live sendOk pm now1 url)
              (loadedA.getD []) (cfg.slackOutput.getD [])).state
          else none) = some s1A := hwA
      rw [if_pos hok] at hwA2
      have hs : s1A = (runSlackOutputs (fun url => processContainerA live sendOk pm now1 url)
          (loadedA.getD []) (cfg.slackOutput.getD [])).state := by
        simpa using hwA2.symm
      have hfacts := (runSlackOutputs_fact live _
        (fun url st g hok2 => stepA_fact live sendOk pm now1 url st g hok2)
        (cfg.slackOutput.getD []) (loadedA.getD []) hok).1
      refine (runSlackOutputs_quiet live _
        (fun url st g hk => stepA_quiet live sendOk2 pm2 now2 url st g hk)
        (fun url st g hok2 => stepA_fact live sendOk2 pm2 now2 url st g hok2)
        (cfg.slackOutput.getD []) s1A ?_).1
      rw [hs]
      exact hfacts
    · have hwA2 : (if (runSlackOutputs (fun url => processContainerA live sendOk pm now1 url)
          (loadedA.getD []) (cfg.slackOutput.getD [])).ok = true then
            some (runSlackOutputs (fun url => processContainerA live sendOk pm now1 url)
              (loadedA.getD []) (cfg.slackOutput.getD [])).state
          else none) = some s1A := hwA
      rw [if_neg hok] at hwA2
      simp at hwA2
  · unfold getGtmInfoB at hwB ⊢
    rw [if_neg herr] at hwB ⊢
    by_cases hok : (runSlackOutputs (fun url => processContainerB live sendOk pm now1 url)
        (loadedB.getD []) (cfg.slackOutput.getD [])).ok = true
    · have hwB2 : (if (runSlackOutputs (fun url => processContainerB live sendOk pm now1 url)
          (loadedB.getD []) (cfg.slackOutput.getD [])).ok = true then
            some (runSlackOutputs (fun url => processContainerB live sendOk pm now1 url)
              (loadedB.getD []) (cfg.slackOutput.getD [])).state
          else none) = some s1B := hwB
      rw [if_pos hok] at hwB2
      have hs : s1B = (runSlackOutputs (fun url => processContainerB live sendOk pm now1 url)
          (loadedB.getD []) (cfg.slackOutput.getD [])).state := by
        simpa using hwB2.symm
      have hfacts := (runSlackOutputs_fact live _
        (fun url st g hok2 => stepB_fact live sendOk pm now1 url st g hok2)
        (cfg.slackOutput.getD []) (loadedB.getD []) hok).1
      refine (runSlackOutputs_quiet live _
        (fun url st g hk => stepB_quiet live sendOk2 pm2 now2 url st g hk)
        (fun url st g hok2 => stepB_fact live sendOk2 pm2 now2 url st g hok2)
        (cfg.slackOutput.getD []) s1B ?_).1
      rw [hs]
      exact hfacts
    · have hwB2 : (if (runSlackOutputs (fun url => processContainerB live sendOk pm now1 url)
          (loadedB.getD []) (cfg.slackOutput.getD [])).ok = true then
            some (runSlackOutputs (fun url => processContainerB live sendOk pm now1 url)
              (loadedB.getD []) (cfg.slackOutput.getD [])).state
          else none) = some s1B := hwB
      rw [if_neg hok] at hwB2
      simp at hwB2

/-- Witness for C9 at a concrete scenario: first run from empty state
writes the fetched version; second run is silent. -/
theorem claim9_witness :
    (getGtmInfoA cfgOne none liveV6 sendAll pmFix 10).written =
      some [("1", [("2", { containerVersionId := some "6", lastChecked := some 10 })])] ∧
    (getGtmInfoB cfgOne none liveV6 sendAll pmFix 10).written =
      some [("1", [("2", { containerVersionId := some "6", lastChecked := some 10 })])] ∧
    ((getGtmInfoA cfgOne
        (some [("1", [("2", { containerVersionId := some "6", lastChecked := some 10 })])])
        liveV6 sendAll pmFix 20).sent = [] ∧
      (getGtmInfoB cfgOne
        (some [("1", [("2", { containerVersionId := some "6", lastChecked := some 10 })])])
        liveV6 sendAll pmFix 20).sent = []) :=
  ⟨by decide, by decide,
    claim9_theorem cfgOne none none liveV6 sendAll pmFix 10 sendAll pmFix 20 _ _
      (by decide) (by decide)⟩

/-! Machinery for claim C8: ordering and abort-on-error. -/

/-- A completed inner loop fetched exactly the configured containers, in
the configured order. -/
theorem runContainers_fetched_of_ok (step : GtmState → String → StepResult)
    (l : List String) :
    ∀ st, (runContainers step st l).ok = true →
      (runContainers step st l).fetched = l.map parentPath := by
  induction l with
  | nil => intro st _; rfl
  | cons g rest ih =>
    intro st hok
    simp only [runContainers] at hok ⊢
    by_cases h1 : (step st g).ok = true
    · rw [if_pos h1] at hok ⊢
      simp only [List.map_cons]
      rw [ih (step st g).state hok]
    · rw [if_neg h1] at hok
      exact absurd hok (by simp)

theorem runContainers_nil (step : GtmState → String → StepResult) (st : GtmState) :
    runContainers step st [] = { state := st, sent := [], fetched := [], ok := true } := rfl

theorem runContainers_cons (step : GtmState → String → StepResult) (st : GtmState)
    (g : String) (rest : List String) :
    runContainers step st (g :: rest) =
      if (step st g).ok = true then
        { state := (runContainers step (step st g).state rest).state
          sent := (step st g).sent ++ (runContainers step (step st g).state rest).sent
          fetched := parentPath g :: (runContainers step (step st g).state rest).fetched
          ok := (runContainers step (step st g).state rest).ok }
      else
        { state := (step st g).state, sent := (step st g).sent,
          fetched := [parentPath g], ok := false } := by
  simp only [runContainers]

/-- Failure at container `g`, after a successful prefix, stops the inner
loop: the containers after `g` are not processed at all. -/
theorem runContainers_append_fail (step : GtmState → String → StepResult)
    (st : GtmState) (gs1 : List String) (g : String) (gs2 : List String)
    (h1 : (runContainers step st gs1).ok = true)
    (h2 : (step (runContainers step st gs1).state g).ok = false) :
    runContainers step st (gs1 ++ g :: gs2) =
      { state := (step (runContainers step st gs1).state g).state
        sent := (runContainers step st gs1).sent ++
          (step (runContainers step st gs1).state g).sent
        fetched := (runContainers step st gs1).fetched ++ [parentPath g]
        ok := false } := by
  induction gs1 generalizing st with
  | nil =>
    rw [List.nil_append, runContainers_cons,
      if_neg (show ¬(step st g).ok = true by rw [Bool.not_eq_true]; exact h2)]
    rw [runContainers_nil] at h2 ⊢
    simp
  | cons g0 rest ih =>
    have hok0 : (step st g0).ok = true := by
      by_contra hc
      rw [runContainers_cons, if_neg hc] at h1
      exact absurd h1 (by simp)
    have h1r : (runContainers step (step st g0).state rest).ok = true := by
      rw [runContainers_cons, if_pos hok0] at h1
      exact h1
    have h2r : (step (runContainers step (step st g0).state rest).state g).ok = false := by
      rw [runContainers_cons, if_pos hok0] at h2
      exact h2
    rw [List.cons_append, runContainers_cons, if_pos hok0, ih (step st g0).state h1r h2r,
      runContainers_cons, if_pos hok0]
    simp [List.append_assoc]

/-- A failed variant-A step delivered nothing. -/
theorem processContainerA_sent_of_fail (live : String → Option VersionData)
    (sendOk : String → Bool) (pm : Option Int → String) (now : Nat) (url : String)
    (st : GtmState) (g : String)
    (hfail : (processContainerA live sendOk pm now url st g).ok = false) :
    (processContainerA live sendOk pm now url st g).sent = [] := by
  cases hl : live (parentPath g) with
  | none => rw [processContainerA_fetch_fail live sendOk pm now url st g hl]
  | some d =>
    cases hr : lookup2 st (accountIdOf g) (containerIdOf g) with
    | none =>
      rw [processContainerA_of_absent live sendOk pm now url st g d hl hr] at hfail
      exact absurd hfail (by simp)
    | some r =>
      rw [processContainerA_of_rec live sendOk pm now url st g d r hl hr] at hfail ⊢
      by_cases hcv : r.containerVersionId ≠ some d.containerVersionId
      · rw [if_pos hcv] at hfail ⊢
        by_cases hs : sendOk url = true
        · rw [if_pos hs] at hfail
          exact absurd hfail (by simp)
        · rw [if_neg hs]
      · rw [if_neg hcv] at hfail
        exact absurd hfail (by simp)

/-- A failed variant-B step delivered nothing. -/
theorem processContainerB_sent_of_fail (live : String → Option VersionData)
    (sendOk : String → Bool) (pm : Option Int → String) (now : Nat) (url : String)
    (st : GtmState) (g : String)
    (hfail : (processContainerB live sendOk pm now url st g).ok = false) :
    (processContainerB live sendOk pm now url st g).sent = [] := by
  cases hl : live (parentPath g) with
  | none => rw [processContainerB_fetch_fail live sendOk pm now url st g hl]
  | some d =>
    cases hr : lookup2 st (accountIdOf g) (containerIdOf g) with
    | none =>
      rw [processContainerB_of_absent live sendOk pm now url st g d hl hr] at hfail
      exact absurd hfail (by simp)
    | some r =>
      rw [processContainerB_of_rec live sendOk pm now url st g d r hl hr] at hfail ⊢
      by_cases hf : cvFalsy r.containerVersionId = true
      · rw [if_pos hf] at hfail
        exact absurd hfail (by simp)
      · rw [if_neg hf] at hfail ⊢
        by_cases hcv : r.containerVersionId ≠ some d.containerVersionId
        · rw [if_pos hcv] at hfail ⊢
          by_cases hs : sendOk url = true
          · rw [if_pos hs] at hfail
            exact absurd hfail (by simp)
          · rw [if_neg hs]
        · rw [if_neg hcv] at hfail
          exact absurd hfail (by simp)

/-- The one-target configuration used to connect the inner loop to the
whole run in claim C8. -/
def mkSingleCfg (b f url : String) (gs : List String) : Config :=
  { gcs := some { bucketName := some b, fileName := some f }
    slackOutput := some [{ slackWebhookUrl := some url, gtmContainers := some gs }]
    verboseLogging := false }

theorem mkSingleCfg_valid (b f url : String) (gs : List String) (hurl : url ≠ "") :
    (validateConfig (mkSingleCfg b f url gs)).error = false := by
  rw [validateConfig_error_eq]
  simp [mkSingleCfg, gcsMissingBucket, gcsMissingFile, slackOutputEmpty,
    slackOutputHasInvalid, entryTruthy, truthyStr, hurl]

/-- An aborted outer loop means the state write never happens
(variant A). -/
theorem getGtmInfoA_written_none (cfg : Config) (loaded : Option GtmState)
    (live : String → Option VersionData) (sendOk : String → Bool)
    (pm : Option Int → String) (now : Nat)
    (herr : ¬(validateConfig cfg).error = true)
    (hok : (runSlackOutputs (fun url => processContainerA live sendOk pm now url)
      (loaded.getD []) (cfg.slackOutput.getD [])).ok = false) :
    (getGtmInfoA cfg loaded live sendOk pm now).written = none := by
  unfold getGtmInfoA
  rw [if_neg herr]
  exact if_neg (by simp [hok])

/-- An aborted outer loop means the state write never happens
(variant B). -/
theorem getGtmInfoB_written_none (cfg : Config) (loaded : Option GtmState)
    (live : String → Option VersionData) (sendOk : String → Bool)
    (pm : Option Int → String) (now : Nat)
    (herr : ¬(validateConfig cfg).error = true)
    (hok : (runSlackOutputs (fun url => processContainerB live sendOk pm now url)
      (loaded.getD []) (cfg.slackOutput.getD [])).ok = false) :
    (getGtmInfoB cfg loaded live sendOk pm now).written = none := by
  unfold getGtmInfoB
  rw [if_neg herr]
  exact if_neg (by simp [hok])

/-- A singleton target list aborts iff its inner loop aborts. -/
theorem runSlackOutputs_singleton_ok (step : String → GtmState → String → StepResult)
    (st : GtmState) (e : SlackOutputEntry)
    (h : (runContainers (step (e.slackWebhookUrl.getD "")) st
      (e.gtmContainers.getD [])).ok = false) :
    (runSlackOutputs step st [e]).ok = false := by
  simp only [runSlackOutputs]
  rw [if_neg (by simp [h])]
  exact h

/-- Claim C8: containers within a notification target are processed in
the configured list order, and when the step for container `g` fails
(fetch or delivery throws) after a successful prefix `gs1`, the loop
fetched exactly the prefix paths plus `g` (in order), delivered nothing
beyond the prefix, aborted, and the final state write never occurs (both
variants). -/
theorem claim8_theorem (live : String → Option VersionData) (sendOk : String → Bool)
    (pm : Option Int → String) (now : Nat) (url b f : String)
    (loaded : Option GtmState) (st : GtmState)
    (gs1 : List String) (g : String) (gs2 : List String)
    (hurl : url ≠ "") (hld : loaded.getD [] = st)
    (hokA : (runContainers (processContainerA live sendOk pm now url) st gs1).ok = true)
    (hfailA : (processContainerA live sendOk pm now url
      (runContainers (processContainerA live sendOk pm now url) st gs1).state g).ok = false)
    (hokB : (runContainers (processContainerB live sendOk pm now url) st gs1).ok = true)
    (hfailB : (processContainerB live sendOk pm now url
      (runContainers (processContainerB live sendOk pm now url) st gs1).state g).ok = false) :
    runContainers (processContainerA live sendOk pm now url) st (gs1 ++ g :: gs2) =
      { state := (processContainerA live sendOk pm now url
          (runContainers (processContainerA live sendOk pm now url) st gs1).state g).state
        sent := (runContainers (processContainerA live sendOk pm now url) st gs1).sent
        fetched := gs1.map parentPath ++ [parentPath g]
        ok := false } ∧
    (getGtmInfoA (mkSingleCfg b f url (gs1 ++ g :: gs2)) loaded live sendOk pm now).written
      = none ∧
    runContainers (processContainerB live sendOk pm now url) st (gs1 ++ g :: gs2) =
      { state := (processContainerB live sendOk pm now url
          (runContainers (processContainerB live sendOk pm now url) st gs1).state g).state
        sent := (runContainers (processContainerB live sendOk pm now url) st gs1).sent
        fetched := gs1.map parentPath ++ [parentPath g]
        ok := false } ∧
    (getGtmInfoB (mkSingleCfg b f url (gs1 ++ g :: gs2)) loaded live sendOk pm now).written
      = none := by
  have herr : ¬(validateConfig (mkSingleCfg b f url (gs1 ++ g :: gs2))).error = true := by
    simp [mkSingleCfg_valid b f url _ hurl]
  have hrA := runContainers_append_fail (processContainerA live sendOk pm now url)
    st gs1 g gs2 hokA hfailA
  have hrB := runContainers_append_fail (processContainerB live sendOk pm now url)
    st gs1 g gs2 hokB hfailB
  refine ⟨?_, ?_, ?_, ?_⟩
  · rw [hrA, processContainerA_sent_of_fail live sendOk pm now url _ g hfailA,
      runContainers_fetched_of_ok (processContainerA live sendOk pm now url) gs1 st hokA]
    simp
  · apply getGtmInfoA_written_none _ _ _ _ _ _ herr
    apply runSlackOutputs_singleton_ok
    rw [hld]
    show (runContainers (processContainerA live sendOk pm now url) st (gs1 ++ g :: gs2)).ok
      = false
    rw [hrA]
  · rw [hrB, processContainerB_sent_of_fail live sendOk pm now url _ g hfailB,
      runContainers_fetched_of_ok (processContainerB live sendOk pm now url) gs1 st hokB]
    simp
  · apply getGtmInfoB_written_none _ _ _ _ _ _ herr
    apply runSlackOutputs_singleton_ok
    rw [hld]
    show (runContainers (processContainerB live sendOk pm now url) st (gs1 ++ g :: gs2)).ok
      = false
    rw [hrB]

/-- Witness for C8 at a concrete scenario: the fetch for `3_4` fails
after `1_2` succeeded, so `5_6` is never fetched and nothing is
written. -/
theorem claim8_witness :
    runContainers (processContainerA liveV6 sendAll pmFix 10 "hook") []
        (["1_2"] ++ "3_4" :: ["5_6"]) =
      { state := (processContainerA liveV6 sendAll pmFix 10 "hook"
          (runContainers (processContainerA liveV6 sendAll pmFix 10 "hook") [] ["1_2"]).state
          "3_4").state
        sent := (runContainers (processContainerA liveV6 sendAll pmFix 10 "hook") [] ["1_2"]).sent
        fetched := ["1_2"].map parentPath ++ [parentPath "3_4"]
        ok := false } ∧
    (getGtmInfoA (mkSingleCfg "bucket" "state.json" "hook" (["1_2"] ++ "3_4" :: ["5_6"]))
      none liveV6 sendAll pmFix 10).written = none ∧
    runContainers (processContainerB liveV6 sendAll pmFix 10 "hook") []
        (["1_2"] ++ "3_4" :: ["5_6"]) =
      { state := (processContainerB liveV6 sendAll pmFix 10 "hook"
          (runContainers (processContainerB liveV6 sendAll pmFix 10 "hook") [] ["1_2"]).state
          "3_4").state
        sent := (runContainers (processContainerB liveV6 sendAll pmFix 10 "hook") [] ["1_2"]).sent
        fetched := ["1_2"].map parentPath ++ [parentPath "3_4"]
        ok := false } ∧
    (getGtmInfoB (mkSingleCfg "bucket" "state.json" "hook" (["1_2"] ++ "3_4" :: ["5_6"]))
      none liveV6 sendAll pmFix 10).written = none :=
  claim8_theorem liveV6 sendAll pmFix 10 "hook" "bucket" "state.json" none []
    ["1_2"] "3_4" ["5_6"] (by decide) rfl (by decide) (by decide) (by decide) (by decide)

/-! Machinery for claim C10: equivalence of the two source variants. -/

/-- The only difference between the two variants' Slack messages: the
part_000 text carries a trailing period. -/
def dotText (m : String × SlackAttachment) : String × SlackAttachment :=
  (m.1, { m.2 with text := m.2.text ++ "." })

theorem string_append_assoc (a b c : String) : a ++ b ++ c = a ++ (b ++ c) := by
  obtain ⟨la⟩ := a
  obtain ⟨lb⟩ := b
  obtain ⟨lc2⟩ := c
  show String.mk (la ++ lb ++ lc2) = String.mk (la ++ (lb ++ lc2))
  rw [List.append_assoc]

theorem sendSlackMessageB_eq_dot (pm : Option Int → String) (now : Nat)
    (lastChecked : Option Nat) (data : VersionData) :
    sendSlackMessageB pm now lastChecked data =
      { sendSlackMessageA pm now lastChecked data with
        text := (sendSlackMessageA pm now lastChecked data).text ++ "." } := by
  unfold sendSlackMessageA sendSlackMessageB
  congr 1
  show "New published version found since last check (" ++ pm (mkDelta now lastChecked)
      ++ " ago)." =
    ("New published version found since last check (" ++ pm (mkDelta now lastChecked)
      ++ " ago)") ++ "."
  rw [string_append_assoc
    ("New published version found since last check (" ++ pm (mkDelta now lastChecked))
    " ago)" "."]
  congr 1

/-- Every record in the state has a present, non-empty
containerVersionId (the prior-state restriction of the amended C10). -/
def goodState (st : GtmState) : Prop :=
  ∀ a c r, lookup2 st a c = some r → ∃ v, r.containerVersionId = some v ∧ v ≠ ""

/-- Run invariant: every record either has a non-empty version id, or
stores exactly the id the remote API reports for its container. -/
def equivInv (live : String → Option VersionData) (st : GtmState) : Prop :=
  ∀ a c r, lookup2 st a c = some r →
    (∃ v, r.containerVersionId = some v ∧ v ≠ "") ∨
    (∃ d, live ("accounts/" ++ a ++ "/containers/" ++ c) = some d ∧
      r.containerVersionId = some d.containerVersionId)

theorem equivInv_of_good (live : String → Option VersionData) (st : GtmState)
    (h : goodState st) : equivInv live st :=
  fun a c r hr => Or.inl (h a c r hr)

theorem equivInv_update (live : String → Option VersionData) (st st2 : GtmState)
    (a0 c0 : String) (d : VersionData) (rec2 : ContainerRecord)
    (hl : live ("accounts/" ++ a0 ++ "/containers/" ++ c0) = some d)
    (hself : lookup2 st2 a0 c0 = some rec2)
    (hcv : rec2.containerVersionId = some d.containerVersionId)
    (hother : ∀ a c, ¬(a0 = a ∧ c0 = c) → lookup2 st2 a c = lookup2 st a c)
    (h : equivInv live st) : equivInv live st2 := by
  intro a c r hr
  by_cases hac : a0 = a ∧ c0 = c
  · obtain ⟨rfl, rfl⟩ := hac
    rw [hself] at hr
    obtain rfl : rec2 = r := by simpa using hr
    exact Or.inr ⟨d, hl, hcv⟩
  · rw [hother a c hac] at hr
    exact h a c r hr

theorem modifyRecord_setRecord (st : GtmState) (a c : String) (r : ContainerRecord)
    (f : ContainerRecord → ContainerRecord) :
    modifyRecord a c f (setRecord a c r st) = setRecord a c (f r) st := by
  unfold modifyRecord
  rw [lookup2_setRecord_self]
  simp only [Option.getD_some]
  rw [setRecord_setRecord]

/-- One step of variant B behaves like one step of variant A under the
invariant: same abort flag, the same messages except for the trailing
period, and (on success) the same state, which keeps the invariant. -/
theorem stepEquiv (live : String → Option VersionData) (sendOk : String → Bool)
    (pm : Option Int → String) (now : Nat) (url : String) (st : GtmState) (g : String)
    (h : equivInv live st) :
    (processContainerB live sendOk pm now url st g).ok =
      (processContainerA live sendOk pm now url st g).ok ∧
    (processContainerB live sendOk pm now url st g).sent =
      (processContainerA live sendOk pm now url st g).sent.map dotText ∧
    ((processContainerA live sendOk pm now url st g).ok = true →
      (processContainerB live sendOk pm now url st g).state =
        (processContainerA live sendOk pm now url st g).state ∧
      equivInv live (processContainerA live sendOk pm now url st g).state) := by
  cases hl : live (parentPath g) with
  | none =>
    rw [processContainerA_fetch_fail live sendOk pm now url st g hl,
      processContainerB_fetch_fail live sendOk pm now url st g hl]
    exact ⟨rfl, rfl, fun hfalse => absurd hfalse (by simp)⟩
  | some d =>
    have hl2 : live ("accounts/" ++ accountIdOf g ++ "/containers/" ++ containerIdOf g)
      = some d := hl
    cases hr : lookup2 st (accountIdOf g) (containerIdOf g) with
    | none =>
      rw [processContainerA_of_absent live sendOk pm now url st g d hl hr,
        processContainerB_of_absent live sendOk pm now url st g d hl hr]
      refine ⟨rfl, rfl, fun _ => ⟨?_, ?_⟩⟩
      · rw [modifyRecord_setRecord]
      · exact equivInv_update live st _ _ _ d
          { containerVersionId := some d.containerVersionId, lastChecked := some now } hl2
          (by simp only [lookup2_modifyRecord_self, lookup2_setRecord_self, Option.getD_some])
          rfl
          (fun a c hac => by
            rw [lookup2_modifyRecord_ne _ _ _ _ _ _ hac, lookup2_setRecord_ne _ _ _ _ _ _ hac,
              lookup2_ensureAccount])
          h
    | some r =>
      rw [processContainerA_of_rec live sendOk pm now url st g d r hl hr,
        processContainerB_of_rec live sendOk pm now url st g d r hl hr]
      by_cases hcvd : r.containerVersionId = some d.containerVersionId
      · have hcv : ¬r.containerVersionId ≠ some d.containerVersionId := not_not_intro hcvd
        have hsetCv : modifyRecord (accountIdOf g) (containerIdOf g)
            (fun x => { x with containerVersionId := some d.containerVersionId }) st = st := by
          unfold modifyRecord
          rw [hr]
          simp only [Option.getD_some]
          rw [← hcvd]
          exact setRecord_eq_of_lookup st _ _ r hr
        have hinv : equivInv live (modifyRecord (accountIdOf g) (containerIdOf g)
            (fun x => { x with lastChecked := some now }) st) :=
          equivInv_update live st _ _ _ d { r with lastChecked := some now } hl2
            (by simp only [lookup2_modifyRecord_self, hr, Option.getD_some]) hcvd
            (fun a c hac => by rw [lookup2_modifyRecord_ne _ _ _ _ _ _ hac]) h
        by_cases hf : cvFalsy r.containerVersionId = true
        · rw [if_pos hf, if_neg hcv, hsetCv]
          exact ⟨rfl, rfl, fun _ => ⟨rfl, hinv⟩⟩
        · rw [if_neg hf, if_neg hcv, if_neg hcv, hsetCv]
          exact ⟨rfl, rfl, fun _ => ⟨rfl, hinv⟩⟩
      · have hcv : r.containerVersionId ≠ some d.containerVersionId := hcvd
        obtain ⟨v, hv, hvne⟩ : ∃ v, r.containerVersionId = some v ∧ v ≠ "" := by
          rcases h _ _ r hr with ⟨v, hv, hvne⟩ | ⟨d0, hd0, hcv0⟩
          · exact ⟨v, hv, hvne⟩
          · exfalso
            have h2 := hl2.symm.trans hd0
            obtain rfl : d = d0 := by simpa using h2
            exact hcvd hcv0
        have hf : ¬cvFalsy r.containerVersionId = true := by
          rw [hv]
          simp [cvFalsy, hvne]
        rw [if_pos hcv, if_neg hf, if_pos hcv]
        by_cases hs : sendOk url = true
        · rw [if_pos hs, if_pos hs]
          refine ⟨rfl, ?_, fun _ => ⟨rfl, ?_⟩⟩
          · simp [dotText, sendSlackMessageB_eq_dot]
          · exact equivInv_update live st _ _ _ d
              { containerVersionId := some d.containerVersionId, lastChecked := some now } hl2
              (by simp only [modifyRecord_modifyRecord, lookup2_modifyRecord_self, hr,
                Option.getD_some])
              rfl
              (fun a c hac => by
                rw [lookup2_modifyRecord_ne _ _ _ _ _ _ hac,
                  lookup2_modifyRecord_ne _ _ _ _ _ _ hac])
              h
        · rw [if_neg hs, if_neg hs]
          exact ⟨rfl, rfl, fun hfalse => absurd hfalse (by simp)⟩

/-- Inner-loop equivalence of the two variants under the invariant. -/
theorem runContainersEquiv (live : String → Option VersionData) (sendOk : String → Bool)
    (pm : Option Int → String) (now : Nat) (url : String) (l : List String) :
    ∀ st, equivInv live st →
      (runContainers (processContainerB live sendOk pm now url) st l).ok =
        (runContainers (processContainerA live sendOk pm now url) st l).ok ∧
      (runContainers (processContainerB live sendOk pm now url) st l).sent =
        (runContainers (processContainerA live sendOk pm now url) st l).sent.map dotText ∧
      (runContainers (processContainerB live sendOk pm now url) st l).fetched =
        (runContainers (processContainerA live sendOk pm now url) st l).fetched ∧
      ((runContainers (processContainerA live sendOk pm now url) st l).ok = true →
        (runContainers (processContainerB live sendOk pm now url) st l).state =
          (runContainers (processContainerA live sendOk pm now url) st l).state ∧
        equivInv live (runContainers (processContainerA live sendOk pm now url) st l).state) := by
  induction l with
  | nil =>
    intro st h
    exact ⟨rfl, rfl, rfl, fun _ => ⟨rfl, h⟩⟩
  | cons g rest ih =>
    intro st h
    obtain ⟨hok, hsent, hstate⟩ := stepEquiv live sendOk pm now url st g h
    by_cases hA : (processContainerA live sendOk pm now url st g).ok = true
    · have hB : (processContainerB live sendOk pm now url st g).ok = true := hok.trans hA
      obtain ⟨hst, hinv⟩ := hstate hA
      obtain ⟨ihok, ihsent, ihfetched, ihstate⟩ :=
        ih (processContainerA live sendOk pm now url st g).state hinv
      rw [runContainers_cons, runContainers_cons, if_pos hA, if_pos hB, hst]
      refine ⟨ihok, ?_, ?_, ?_⟩
      · show (processContainerB live sendOk pm now url st g).sent ++
            (runContainers (processContainerB live sendOk pm now url)
              (processContainerA live sendOk pm now url st g).state rest).sent =
          ((processContainerA live sendOk pm now url st g).sent ++
            (runContainers (processContainerA live sendOk pm now url)
              (processContainerA live sendOk pm now url st g).state rest).sent).map dotText
        rw [List.map_append, hsent, ihsent]
      · show parentPath g :: (runContainers (processContainerB live sendOk pm now url)
            (processContainerA live sendOk pm now url st g).state rest).fetched =
          parentPath g :: (runContainers (processContainerA live sendOk pm now url)
            (processContainerA live sendOk pm now url st g).state rest).fetched
        rw [ihfetched]
      · intro hokall
        obtain ⟨ihst, ihinv⟩ := ihstate hokall
        exact ⟨ihst, ihinv⟩
    · have hB : ¬(processContainerB live sendOk pm now url st g).ok = true := by
        rw [hok]; exact hA
      rw [runContainers_cons, runContainers_cons, if_neg hA, if_neg hB]
      exact ⟨rfl, hsent, rfl, fun hfalse => absurd hfalse (by simp)⟩

/-- Outer-loop equivalence of the two variants under the invariant. -/
theorem runSlackOutputsEquiv (live : String → Option VersionData) (sendOk : String → Bool)
    (pm : Option Int → String) (now : Nat) (entries : List SlackOutputEntry) :
    ∀ st, equivInv live st →
      (runSlackOutputs (fun url => processContainerB live sendOk pm now url) st entries).ok =
        (runSlackOutputs (fun url => processContainerA live sendOk pm now url) st entries).ok ∧
      (runSlackOutputs (fun url => processContainerB live sendOk pm now url) st entries).sent =
        (runSlackOutputs (fun url => processContainerA live sendOk pm now url) st
          entries).sent.map dotText ∧
      (runSlackOutputs (fun url => processContainerB live sendOk pm now url) st
          entries).fetched =
        (runSlackOutputs (fun url => processContainerA live sendOk pm now url) st
          entries).fetched ∧
      ((runSlackOutputs (fun url => processContainerA live sendOk pm now url) st
          entries).ok = true →
        (runSlackOutputs (fun url => processContainerB live sendOk pm now url) st
            entries).state =
          (runSlackOutputs (fun url => processContainerA live sendOk pm now url) st
            entries).state ∧
        equivInv live (runSlackOutputs (fun url => processContainerA live sendOk pm now url)
          st entries).state) := by
  induction entries with
  | nil =>
    intro st h
    exact ⟨rfl, rfl, rfl, fun _ => ⟨rfl, h⟩⟩
  | cons e rest ih =>
    intro st h
    obtain ⟨cok, csent, cfetched, cstate⟩ :=
      runContainersEquiv live sendOk pm now (e.slackWebhookUrl.getD "")
        (e.gtmContainers.getD []) st h
    by_cases hA : (runContainers (processContainerA live sendOk pm now
        (e.slackWebhookUrl.getD "")) st (e.gtmContainers.getD [])).ok = true
    · have hB : (runContainers (processContainerB live sendOk pm now
          (e.slackWebhookUrl.getD "")) st (e.gtmContainers.getD [])).ok = true :=
        cok.trans hA
      obtain ⟨cst, cinv⟩ := cstate hA
      obtain ⟨ihok, ihsent, ihfetched, ihstate⟩ :=
        ih (runContainers (processContainerA live sendOk pm now
          (e.slackWebhookUrl.getD "")) st (e.gtmContainers.getD [])).state cinv
      simp only [runSlackOutputs]
      rw [if_pos hA, if_pos hB, cst]
      refine ⟨ihok, ?_, ?_, ?_⟩
      · show (runContainers (processContainerB live sendOk pm now
              (e.slackWebhookUrl.getD "")) st (e.gtmContainers.getD [])).sent ++
            (runSlackOutputs (fun url => processContainerB live sendOk pm now url)
              (runContainers (processContainerA live sendOk pm now
                (e.slackWebhookUrl.getD "")) st (e.gtmContainers.getD [])).state rest).sent =
          ((runContainers (processContainerA live sendOk pm now
              (e.slackWebhookUrl.getD "")) st (e.gtmContainers.getD [])).sent ++
            (runSlackOutputs (fun url => processContainerA live sendOk pm now url)
              (runContainers (processContainerA live sendOk pm now
                (e.slackWebhookUrl.getD "")) st (e.gtmContainers.getD [])).state
              rest).sent).map dotText
        rw [List.map_append, csent, ihsent]
      · show (runContainers (processContainerB live sendOk pm now
              (e.slackWebhookUrl.getD "")) st (e.gtmContainers.getD [])).fetched ++
            (runSlackOutputs (fun url => processContainerB live sendOk pm now url)
              (runContainers (processContainerA live sendOk pm now
                (e.slackWebhookUrl.getD "")) st (e.gtmContainers.getD [])).state
              rest).fetched =
          (runContainers (processContainerA live sendOk pm now
              (e.slackWebhookUrl.getD "")) st (e.gtmContainers.getD [])).fetched ++
            (runSlackOutputs (fun url => processContainerA live sendOk pm now url)
              (runContainers (processContainerA live sendOk pm now
                (e.slackWebhookUrl.getD "")) st (e.gtmContainers.getD [])).state
              rest).fetched
        rw [cfetched, ihfetched]
      · intro hokall
        obtain ⟨ihst, ihinv⟩ := ihstate hokall
        exact ⟨ihst, ihinv⟩
    · have hB : ¬(runContainers (processContainerB live sendOk pm now
          (e.slackWebhookUrl.getD "")) st (e.gtmContainers.getD [])).ok = true := by
        rw [cok]; exact hA
      simp only [runSlackOutputs]
      rw [if_neg hA, if_neg hB]
      exact ⟨cok, csent, cfetched, fun hfalse => absurd hfalse hA⟩

/-- Claim C10, counterexample: on a prior state storing version `"5"`
and a live fetch returning `"6"`, both variants notify, but the message
contents differ (the part_000 text ends in a period), so the two source
files do not produce the same notifications. -/
theorem claim10_counterexample :
    (getGtmInfoB cfgOne (some stCv5) liveV6 sendAll pmFix 200).sent.map
        (fun m => m.2.text) ≠
      (getGtmInfoA cfgOne (some stCv5) liveV6 sendAll pmFix 200).sent.map
        (fun m => m.2.text) := by
  decide

/-- Claim C10 (amended): when every record of the loaded prior state has
a present, non-empty containerVersionId, the two variants attempt the
same state read and the same fetches in the same order, write the same
final state (or both abort), and send notifications to the same
destinations built from the same data — their message contents differing
only in that the part_000 text carries a trailing period. -/
theorem claim10_theorem (cfg : Config) (loaded : Option GtmState)
    (live : String → Option VersionData) (sendOk : String → Bool)
    (pm : Option Int → String) (now : Nat)
    (h : goodState (loaded.getD [])) :
    (getGtmInfoB cfg loaded live sendOk pm now).stateRead =
      (getGtmInfoA cfg loaded live sendOk pm now).stateRead ∧
    (getGtmInfoB cfg loaded live sendOk pm now).fetched =
      (getGtmInfoA cfg loaded live sendOk pm now).fetched ∧
    (getGtmInfoB cfg loaded live sendOk pm now).sent =
      (getGtmInfoA cfg loaded live sendOk pm now).sent.map dotText ∧
    (getGtmInfoB cfg loaded live sendOk pm now).written =
      (getGtmInfoA cfg loaded live sendOk pm now).written := by
  by_cases herr : (validateConfig cfg).error = true
  · unfold getGtmInfoA getGtmInfoB
    rw [if_pos herr, if_pos herr]
    exact ⟨rfl, rfl, rfl, rfl⟩
  · unfold getGtmInfoA getGtmInfoB
    rw [if_neg herr, if_neg herr]
    obtain ⟨hok, hsent, hfetched, hstate⟩ :=
      runSlackOutputsEquiv live sendOk pm now (cfg.slackOutput.getD [])
        (loaded.getD []) (equivInv_of_good live _ h)
    refine ⟨rfl, hfetched, hsent, ?_⟩
    show (if (runSlackOutputs (fun url => processContainerB live sendOk pm now url)
          (loaded.getD []) (cfg.slackOutput.getD [])).ok = true then
        some (runSlackOutputs (fun url => processContainerB live sendOk pm now url)
          (loaded.getD []) (cfg.slackOutput.getD [])).state
      else none) =
      (if (runSlackOutputs (fun url => processContainerA live sendOk pm now url)
          (loaded.getD []) (cfg.slackOutput.getD [])).ok = true then
        some (runSlackOutputs (fun url => processContainerA live sendOk pm now url)
          (loaded.getD []) (cfg.slackOutput.getD [])).state
      else none)
    rw [hok]
    by_cases hA : (runSlackOutputs (fun url => processContainerA live sendOk pm now url)
        (loaded.getD []) (cfg.slackOutput.getD [])).ok = true
    · rw [if_pos hA, if_pos hA]
      exact congrArg some (hstate hA).1
    · rw [if_neg hA, if_neg hA]

/-- A one-record state whose version id is non-empty is a good prior
state. -/
theorem goodState_singleton (a0 c0 v : String) (lc : Option Nat) (hv : v ≠ "") :
    goodState [(a0, [(c0, { containerVersionId := some v, lastChecked := lc })])] := by
  intro a c r hr
  by_cases ha : a0 = a
  · subst ha
    by_cases hc : c0 = c
    · subst hc
      have hval : lookup2 [(a0, [(c0, ContainerRecord.mk (some v) lc)])] a0 c0 =
          some (ContainerRecord.mk (some v) lc) := by
        simp [lookup2, lookupKey]
      rw [hval] at hr
      obtain rfl : ContainerRecord.mk (some v) lc = r := by simpa using hr
      exact ⟨v, rfl, hv⟩
    · have hval : lookup2 [(a0, [(c0, ContainerRecord.mk (some v) lc)])] a0 c = none := by
        simp [lookup2, lookupKey, hc]
      rw [hval] at hr
      exact absurd hr (by simp)
  · have hval : lookup2 [(a0, [(c0, ContainerRecord.mk (some v) lc)])] a c = none := by
      simp [lookup2, lookupKey, ha]
    rw [hval] at hr
    exact absurd hr (by simp)

/-- Witness for the amended C10 at a concrete scenario. -/
theorem claim10_witness :
    (getGtmInfoB cfgOne (some stCv5) liveV6 sendAll pmFix 200).stateRead =
      (getGtmInfoA cfgOne (some stCv5) liveV6 sendAll pmFix 200).stateRead ∧
    (getGtmInfoB cfgOne (some stCv5) liveV6 sendAll pmFix 200).fetched =
      (getGtmInfoA cfgOne (some stCv5) liveV6 sendAll pmFix 200).fetched ∧
    (getGtmInfoB cfgOne (some stCv5) liveV6 sendAll pmFix 200).sent =
      (getGtmInfoA cfgOne (some stCv5) liveV6 sendAll pmFix 200).sent.map dotText ∧
    (getGtmInfoB cfgOne (some stCv5) liveV6 sendAll pmFix 200).written =
      (getGtmInfoA cfgOne (some stCv5) liveV6 sendAll pmFix 200).written :=
  claim10_theorem cfgOne (some stCv5) liveV6 sendAll pmFix 200
    (goodState_singleton "1" "2" "5" (some 100) (by decide))

end GtmSlack
